import Mathlib

/-!
# Verification of the Ushio ballast emulator serial core

Shallow embedding of `src/code/attiny-ballast.c` (`ushioLoop` and the global
buffers/tables it uses).  One iteration of the `while(1)` loop body — executed
once per timer tick — is modelled as a pure function on an explicit state
record.  The loop body is split into the same contiguous blocks as the C
source:

* `sampleRx`   — lines 140–141 (store previous level, sample RXD)
* `timersDec`  — lines 157–159 (decrement `rxTick`, `txTick`, `rxTimeout`)
* `rxHandle`   — lines 162–211 (receive framer state machine)
* `txStepB`    — lines 214–245 (transmit framer state machine)
* `txSched`    — lines 248–257 (transmit scheduling / queue self-clear)
* `matchStep`  — lines 260–307 (protocol matcher)

The TXD output driven during a tick (lines 150–154) is the value of `txBit`
as the tick begins, i.e. before the transmit framer runs; trace functions
below record exactly that value.

Machine bytes are `Nat` with explicit `% 256` where the C `uint8_t`
arithmetic can wrap (`readBit <<= 1`, `writeBit <<= 1`, `uartTxWrite++`).
The byte buffers are total maps `Nat → Nat` (the C arrays, index ↦ cell).

The state carries one piece of ghost instrumentation: `rxLog`, the list of
bytes the receive framer has committed (appended exactly when the C code
advances `uartRxWrite` at line 196, with the value the byte has after the
final OR at line 189).  No source behaviour reads `rxLog`.
-/

namespace Ballast

inductive UartState where
  | IDLE | START | DATA | PARITY | STOP
deriving DecidableEq, Repr

open UartState

structure Ushio where
  rxLastBit : Bool
  rxBit : Bool
  rxState : UartState
  rxParity : Bool
  rxTick : Nat
  readBit : Nat
  txBit : Bool
  txState : UartState
  txParity : Bool
  txTick : Nat
  writeBit : Nat
  rxTimeout : Nat
  rxBuf : Nat → Nat
  rxWrite : Nat
  rxRead : Nat
  txBuf : Nat → Nat
  txWrite : Nat
  txRead : Nat
  rxLog : List Nat

/-- `#define UART_RX_TIMEOUT 480` -/
def UART_RX_TIMEOUT : Nat := 480

/-- `#define UARTRXMASK 0x0F` -/
def UARTRXMASK : Nat := 0x0F

/-- `#define UARTTXMASK 0x0F` -/
def UARTTXMASK : Nat := 0x0F

/-- `#define USHIO_QUERIES 5` -/
def USHIO_QUERIES : Nat := 5

/-- The `ushioQuery_t` struct (lines 69–74). -/
structure UshioQueryEntry where
  qLength : Nat
  qData : List Nat
  rLength : Nat
  rData : List Nat

/-- The fixed command/reply table `ushioQuery` (lines 75–81). -/
def ushioQuery : List UshioQueryEntry := [
  ⟨2, [0x51, 0x0D], 3, [0x51, 0x32, 0x0D]⟩,
  ⟨3, [0x4C, 0x46, 0x0D], 2, [0x41, 0x0D]⟩,
  ⟨2, [0x50, 0x0D], 3, [0x50, 0x46, 0x0D]⟩,
  ⟨2, [0x51, 0x0D], 3, [0x51, 0x32, 0x0D]⟩,
  ⟨3, [0x4C, 0x45, 0x0D], 2, [0x41, 0x0D]⟩]

/-- Array cell assignment `f[i] = v`. -/
def bufSet (f : Nat → Nat) (i v : Nat) : Nat → Nat :=
  fun j => if j = i then v else f j

/-- Lines 140–141: `rxLastBit = rxBit; rxBit = PINB & RXPIN;`. -/
def sampleRx (input : Bool) (s : Ushio) : Ushio :=
  { s with rxLastBit := s.rxBit, rxBit := input }

/-- Lines 157–159: `if(rxTick) rxTick--; if(txTick) txTick--; if(rxTimeout) rxTimeout--;`. -/
def timersDec (s : Ushio) : Ushio :=
  { s with
    rxTick := if s.rxTick ≠ 0 then s.rxTick - 1 else s.rxTick,
    txTick := if s.txTick ≠ 0 then s.txTick - 1 else s.txTick,
    rxTimeout := if s.rxTimeout ≠ 0 then s.rxTimeout - 1 else s.rxTimeout }

/-- Lines 162–211: the receive framer, handled only when `rxTick == 0`.
The `if / else if / ... / else` chain is translated branch for branch; the
final `else` is the STOP-bit branch (it also catches an idle line with no
start edge, exactly as in the C chain).  The ghost `rxLog` records the byte
just committed when the 8th data bit advances `uartRxWrite`. -/
def rxHandle (s : Ushio) : Ushio :=
  if s.rxTick = 0 then
    if s.rxState = IDLE ∧ s.rxBit = false ∧ s.rxLastBit = true then
      { s with rxState := START, rxTick := 1 }
    else if s.rxState = START then
      if s.rxBit = false then
        { s with rxParity := false, readBit := 1, rxState := DATA,
                 rxBuf := bufSet s.rxBuf s.rxWrite 0, rxTick := 4,
                 rxTimeout := if s.rxTimeout = 0 then UART_RX_TIMEOUT else s.rxTimeout }
      else
        { s with rxState := IDLE, rxTick := 0 }
    else if s.rxState = DATA then
      let s1 : Ushio :=
        if s.rxBit then
          { s with rxBuf := bufSet s.rxBuf s.rxWrite (s.rxBuf s.rxWrite ||| s.readBit),
                   rxParity := !s.rxParity }
        else s
      let rb : Nat := (s1.readBit * 2) % 256
      if rb = 0 then
        { s1 with readBit := rb, rxState := PARITY,
                  rxWrite := (s1.rxWrite + 1) &&& UARTRXMASK,
                  rxLog := s1.rxLog ++ [s1.rxBuf s1.rxWrite],
                  rxTick := 4 }
      else
        { s1 with readBit := rb, rxTick := 4 }
    else if s.rxState = PARITY then
      { s with rxState := STOP, rxTick := 4 }
    else
      { s with rxState := IDLE, rxTick := 0 }
  else s

/-- Lines 214–245: the transmit framer, handled only when `txTick == 0`;
`txTick = 4` is set first, then the state machine runs. -/
def txStepB (s : Ushio) : Ushio :=
  if s.txTick = 0 then
    let s0 : Ushio := { s with txTick := 4 }
    if s0.txState = START then
      { s0 with txBit := false, writeBit := 1, txParity := false, txState := DATA }
    else if s0.txState = DATA then
      let s1 : Ushio :=
        if s0.txBuf s0.txRead &&& s0.writeBit ≠ 0 then
          { s0 with txBit := true, txParity := !s0.txParity }
        else
          { s0 with txBit := false }
      let wb : Nat := (s1.writeBit * 2) % 256
      if wb = 0 then
        { s1 with writeBit := wb, txState := PARITY,
                  txRead := (s1.txRead + 1) &&& UARTTXMASK }
      else
        { s1 with writeBit := wb }
    else if s0.txState = PARITY then
      { s0 with txBit := s0.txParity, txState := STOP }
    else
      { s0 with txBit := true, txState := IDLE }
  else s

/-- Lines 248–257: start the next byte if the transmit queue has unread
data, otherwise reset both transmit cursors. -/
def txSched (s : Ushio) : Ushio :=
  if s.txState = IDLE then
    if s.txRead < s.txWrite then { s with txState := START }
    else { s with txRead := 0, txWrite := 0 }
  else s

/-- The inner `j` loop of the matcher (lines 269–274): scan the buffered
bytes against entry data; `true` means a mismatch was found (`failed |= 0x01`
and `break` in C). -/
def qScan (buf : Nat → Nat) (qd : List Nat) (len j : Nat) : Bool :=
  if j < len then
    if buf j ≠ qd.getD j 0 then true else qScan buf qd len (j + 1)
  else false
termination_by len - j

/-- Lines 281–284: `uartTxBuffer[uartTxWrite++] = rData[j]` for each reply
byte (`uartTxWrite` is a `uint8_t`, hence the `% 256`). -/
def appendReply (buf : Nat → Nat) (w : Nat) (rd : List Nat) : (Nat → Nat) × Nat :=
  match rd with
  | [] => (buf, w)
  | v :: rest => appendReply (bufSet buf w v) ((w + 1) % 256) rest

/-- `ushioQuery[i]`: table entry access (out-of-range reads, which never
occur, give a zero entry). -/
def qEntry (i : Nat) : UshioQueryEntry := ushioQuery.getD i ⟨0, [], 0, []⟩

/-- The outer `i` loop of the matcher (lines 264–297), returning the final
`failed` flags and the (possibly) updated state.  A successful match appends
the reply when `UARTTXMASK > uartTxWrite + rLength`, sets `failed = 0` and
breaks. -/
def matchLoop (s : Ushio) (i fl : Nat) : Nat × Ushio :=
  if i < USHIO_QUERIES then
    let fl1 : Nat := fl &&& 0xFE
    let q : UshioQueryEntry := qEntry i
    if q.qLength ≤ s.rxWrite then
      let fl2 : Nat := if qScan s.rxBuf q.qData q.qLength 0 then fl1 ||| 0x01 else fl1
      if fl2 &&& 0x01 = 0 then
        let s1 : Ushio :=
          if s.txWrite + q.rLength < UARTTXMASK then
            let bw := appendReply s.txBuf s.txWrite q.rData
            { s with txBuf := bw.1, txWrite := bw.2 }
          else s
        (0, s1)
      else
        matchLoop s (i + 1) fl2
    else
      matchLoop s (i + 1) (fl1 ||| 0x02)
  else (fl, s)
termination_by USHIO_QUERIES - i

/-- Lines 260–307: the protocol matcher, run when the receive framer is idle
and the receive queue is non-empty; afterwards the receive queue is cleared
when `failed == 0 || !(failed & 0x02) || rxTimeout == 0`. -/
def matchStep (s : Ushio) : Ushio :=
  if s.rxState = IDLE ∧ 0 < s.rxWrite then
    let r := matchLoop s 0 0
    if r.1 = 0 ∨ r.1 &&& 0x02 = 0 ∨ r.2.rxTimeout = 0 then
      { r.2 with rxWrite := 0, rxRead := 0, rxTimeout := 0 }
    else r.2
  else s

/-- One full iteration of the `ushioLoop` body for a given sampled input
level, in source order. -/
def uTick (input : Bool) (s : Ushio) : Ushio :=
  matchStep (txSched (txStepB (rxHandle (timersDec (sampleRx input s)))))

/-- The receive framer alone (sampling, timers and lines 162–211), without
the transmit framer or the matcher — the "Receive Framer" component. -/
def rxFramerTick (input : Bool) (s : Ushio) : Ushio :=
  rxHandle (timersDec (sampleRx input s))

/-- The transmit framer alone (timers plus lines 214–257) — the "Transmit
Framer" component.  It reads no input pin. -/
def txFramerTick (s : Ushio) : Ushio :=
  txSched (txStepB (timersDec s))

/-- Feed a list of sampled line levels tick-by-tick into the receive framer. -/
def rxFramerRun (l : List Bool) (s : Ushio) : Ushio :=
  l.foldl (fun t i => rxFramerTick i t) s

/-- The line levels the transmit framer drives over the next `n` ticks
(the level driven during a tick is `txBit` as the tick begins, lines 150–154). -/
def uTxTraceN : Nat → Ushio → List Bool
  | 0, _ => []
  | n + 1, s => s.txBit :: uTxTraceN n (txFramerTick s)

/-- The line levels driven by the full machine over `n` ticks while its own
receive input idles high. -/
def uTraceN : Nat → Ushio → List Bool
  | 0, _ => []
  | n + 1, s => s.txBit :: uTraceN n (uTick true s)

/-- Run the full machine for `n` ticks with the receive input held high. -/
def uRunN : Nat → Ushio → Ushio
  | 0, s => s
  | n + 1, s => uRunN n (uTick true s)

/-- The state at power-on entry to `ushioLoop`: the C initialisers of the
globals (lines 84–93) and of the locals (lines 116–129). -/
def ushioInit : Ushio :=
  { rxLastBit := false, rxBit := false, rxState := IDLE, rxParity := false,
    rxTick := 0, readBit := 1,
    txBit := true, txState := IDLE, txParity := false, txTick := 0, writeBit := 1,
    rxTimeout := 0,
    rxBuf := fun _ => 0, rxWrite := 0, rxRead := 0,
    txBuf := fun i => [0x51, 0x32, 0x0D].getD i 0, txWrite := 0, txRead := 0,
    rxLog := [] }

/-- The bytes pending in the transmit queue: the cells from the read cursor
up to the write cursor. -/
def txPending (s : Ushio) : List Nat :=
  (List.range (s.txWrite - s.txRead)).map (fun i => s.txBuf (s.txRead + i))

/-- The power-on state with the transmit queue loaded with the byte list `b`
(backing array `b`, write cursor at `b.length`), ready for serialization. -/
def txInit (b : List Nat) : Ushio :=
  { ushioInit with txBuf := fun i => b.getD i 0, txWrite := b.length }

/-- XOR-reduction of the 8 data bits of a byte (even-parity value). -/
def parityFold (v : Nat) : Bool :=
  (List.range 8).foldl (fun a k => xor a (v.testBit k)) false

/-- The 8 data bits of `v`, LSB first, each held for 4 ticks. -/
def spread4 (v : Nat) : List Bool :=
  ((List.range 8).map (fun k => List.replicate 4 (v.testBit k))).flatten

/-- The line levels of one received byte frame as they arrive at the receive
framer: 4 ticks of start bit (low), the data bits, 4 ticks of parity, 4 ticks
of stop bit (high). -/
def frameSeq (v : Nat) : List Bool :=
  List.replicate 4 false ++ spread4 v ++
    List.replicate 4 (parityFold v) ++ List.replicate 4 true

/-- The line levels one transmit-framer byte block drives: 4 ticks of the
previous stop/idle level (high), 4 ticks of start bit, the data bits, and
4 ticks of parity. -/
def blockOut (v : Nat) : List Bool :=
  List.replicate 4 true ++ List.replicate 4 false ++ spread4 v ++
    List.replicate 4 (parityFold v)

/-- Recombination of the bits of `v` below 8, as the receive framer ORs them
into the byte accumulator. -/
def orBits (v : Nat) : Nat :=
  (List.range 8).foldl (fun a k => if v.testBit k then a ||| 2 ^ k else a) 0

/-- A canonical transmit-side state: transmit framer in state `st` driving
level `x`, parity accumulator `p`, bit mask `m`, queue `buf`/`w`/`r`, tick
budget `t`, and the receive side at rest. -/
def txSt (st : UartState) (x p : Bool) (m : Nat) (buf : Nat → Nat) (w r t : Nat) : Ushio :=
  { rxLastBit := false, rxBit := false, rxState := IDLE, rxParity := false,
    rxTick := 0, readBit := 1,
    txBit := x, txState := st, txParity := p, txTick := t, writeBit := m,
    rxTimeout := 0,
    rxBuf := fun _ => 0, rxWrite := 0, rxRead := 0,
    txBuf := buf, txWrite := w, txRead := r, rxLog := [] }

/-- Run the transmit framer for `n` ticks. -/
def txRunN : Nat → Ushio → Ushio
  | 0, s => s
  | n + 1, s => txRunN n (txFramerTick s)

/-- A canonical receive-side state: receive framer in state `st` with the
given sampled levels, tick budget, parity accumulator, bit mask, queue and
idle-timeout, and the transmit side at rest (power-on transmit fields). -/
def rxSt (st : UartState) (last cur : Bool) (tick : Nat) (par : Bool) (rb : Nat)
    (buf : Nat → Nat) (w τ : Nat) (lg : List Nat) : Ushio :=
  { rxLastBit := last, rxBit := cur, rxState := st, rxParity := par,
    rxTick := tick, readBit := rb,
    txBit := true, txState := IDLE, txParity := false, txTick := 0, writeBit := 1,
    rxTimeout := τ,
    rxBuf := buf, rxWrite := w, rxRead := 0,
    txBuf := fun i => [0x51, 0x32, 0x0D].getD i 0, txWrite := 0, txRead := 0,
    rxLog := lg }

/-- Value of the receive idle-timeout after one byte frame received from a
canonical idle state with timeout `τ`: two ambient decrements, re-arming to
480 when it has run out, then 42 more ambient decrements. -/
def rxTimeoutNext (τ : Nat) : Nat :=
  (if τ - 2 = 0 then UART_RX_TIMEOUT else τ - 2) - 42

/-- Table entry `i` matches the buffered bytes: enough bytes are buffered and
the byte-for-byte scan finds no mismatch. -/
def entryMatches (s : Ushio) (i : Nat) : Prop :=
  (qEntry i).qLength ≤ s.rxWrite ∧
    qScan s.rxBuf (qEntry i).qData (qEntry i).qLength 0 = false

/-- Some table entry matches the buffered bytes (a match is handled). -/
def queueHandled (s : Ushio) : Prop :=
  ∃ i, i < USHIO_QUERIES ∧ entryMatches s i

/-- No table entry needs more bytes than are currently buffered. -/
def noneLonger (s : Ushio) : Prop :=
  ∀ i, i < USHIO_QUERIES → (qEntry i).qLength ≤ s.rxWrite

/-- The receive queue is cleared: both cursors reset and timeout disarmed. -/
def rxCleared (s : Ushio) : Prop :=
  s.rxWrite = 0 ∧ s.rxRead = 0 ∧ s.rxTimeout = 0

/-! ## Basic lemmas about runs, traces and buffer writes -/

theorem bufSet_apply (f : Nat → Nat) (i v j : Nat) :
    bufSet f i v j = if j = i then v else f j := rfl

theorem rxFramerRun_nil (s : Ushio) : rxFramerRun [] s = s := rfl

theorem rxFramerRun_cons (x : Bool) (l : List Bool) (s : Ushio) :
    rxFramerRun (x :: l) s = rxFramerRun l (rxFramerTick x s) := rfl

theorem rxFramerRun_append (l1 l2 : List Bool) (s : Ushio) :
    rxFramerRun (l1 ++ l2) s = rxFramerRun l2 (rxFramerRun l1 s) := by
  simp [rxFramerRun, List.foldl_append]

theorem txRunN_add (m n : Nat) (s : Ushio) :
    txRunN (m + n) s = txRunN n (txRunN m s) := by
  induction m generalizing s with
  | zero => simp [txRunN]
  | succ m ih =>
    have h : m + 1 + n = (m + n) + 1 := by omega
    rw [h]
    simp only [txRunN]
    exact ih (txFramerTick s)

theorem uTxTraceN_add (m n : Nat) (s : Ushio) :
    uTxTraceN (m + n) s = uTxTraceN m s ++ uTxTraceN n (txRunN m s) := by
  induction m generalizing s with
  | zero => simp [uTxTraceN, txRunN]
  | succ m ih =>
    have h : m + 1 + n = (m + n) + 1 := by omega
    rw [h]
    simp only [uTxTraceN, txRunN]
    rw [ih (txFramerTick s)]
    simp [uTxTraceN]

theorem appendReply_snd (rd : List Nat) : ∀ (buf : Nat → Nat) (w : Nat),
    w + rd.length < 256 → (appendReply buf w rd).2 = w + rd.length := by
  induction rd with
  | nil => intro buf w _; simp [appendReply]
  | cons v rest ih =>
    intro buf w h
    simp only [appendReply]
    rw [Nat.mod_eq_of_lt (a := w + 1) (by simp at h; omega)]
    rw [ih _ (w + 1) (by simp at h ⊢; omega)]
    simp; omega

theorem appendReply_keep (rd : List Nat) : ∀ (buf : Nat → Nat) (w : Nat),
    w + rd.length < 256 → ∀ k, k < w ∨ w + rd.length ≤ k →
    (appendReply buf w rd).1 k = buf k := by
  induction rd with
  | nil => intro buf w _ k _; simp [appendReply]
  | cons v rest ih =>
    intro buf w h k hk
    simp only [appendReply]
    rw [Nat.mod_eq_of_lt (a := w + 1) (by simp at h; omega)]
    rw [ih _ (w + 1) (by simp at h ⊢; omega) k (by simp at hk ⊢; omega)]
    simp only [bufSet]
    have : k ≠ w := by simp at hk; omega
    simp [this]

theorem appendReply_at (rd : List Nat) : ∀ (buf : Nat → Nat) (w : Nat),
    w + rd.length < 256 → ∀ i, i < rd.length →
    (appendReply buf w rd).1 (w + i) = rd.getD i 0 := by
  induction rd with
  | nil => intro buf w _ i hi; simp at hi
  | cons v rest ih =>
    intro buf w h i hi
    simp only [appendReply]
    rw [Nat.mod_eq_of_lt (a := w + 1) (by simp at h; omega)]
    match i with
    | 0 =>
      rw [appendReply_keep rest _ (w + 1) (by simp at h ⊢; omega) (w + 0) (by omega)]
      simp [bufSet]
    | i + 1 =>
      have : w + (i + 1) = (w + 1) + i := by omega
      rw [this, ih _ (w + 1) (by simp at h ⊢; omega) i (by simp at hi; omega)]
      simp

theorem matchLoop_tx_bounded (s : Ushio) :
    ∀ n i fl, USHIO_QUERIES - i ≤ n →
      (∀ k, 14 ≤ k → (matchLoop s i fl).2.txBuf k = s.txBuf k) ∧
      (13 ≤ s.txWrite → (matchLoop s i fl).2 = s) := by
  intro n
  induction n with
  | zero =>
    intro i fl h
    rw [matchLoop]
    have : ¬ i < USHIO_QUERIES := by simp [USHIO_QUERIES] at h ⊢; omega
    simp [this]
  | succ n ih =>
    intro i fl h
    rw [matchLoop]
    by_cases hi : i < USHIO_QUERIES
    · simp only [hi, if_true]
      set q := qEntry i with hq
      by_cases hline : q.qLength ≤ s.rxWrite
      · simp only [hline, if_true]
        by_cases hscan : (if qScan s.rxBuf q.qData q.qLength 0 then (fl &&& 254) ||| 1
            else fl &&& 254) &&& 1 = 0
        · simp only [hscan, if_true]
          by_cases hroom : s.txWrite + q.rLength < UARTTXMASK
          · have hent : q.rData.length = q.rLength ∧ 2 ≤ q.rLength := by
              have : i = 0 ∨ i = 1 ∨ i = 2 ∨ i = 3 ∨ i = 4 := by
                simp [USHIO_QUERIES] at hi; omega
              rcases this with h | h | h | h | h <;>
                simp [hq, h, qEntry, ushioQuery]
            simp only [hroom, if_true]
            constructor
            · intro k hk
              rw [appendReply_keep q.rData s.txBuf s.txWrite
                (by simp [UARTTXMASK] at hroom; omega) k
                (by simp [UARTTXMASK] at hroom; omega)]
            · intro hw
              exfalso
              simp [UARTTXMASK] at hroom; omega
          · simp [hroom]
        · simp only [hscan, if_false]
          exact ih (i + 1) _ (by simp [USHIO_QUERIES] at h ⊢; omega)
      · simp only [hline, if_false]
        exact ih (i + 1) _ (by simp [USHIO_QUERIES] at h ⊢; omega)
    · simp [hi]


/-- C8: the receive framer ignores the sampled parity-bit and stop-bit
values: on the tick where the PARITY state is due it always proceeds to
STOP, and on the tick where the STOP state is due it always returns to IDLE
with zero tick delay; in both cases the queue contents, the write cursor and
the committed-byte log are unchanged — hence identical whatever level was
sampled. -/
theorem c8_parity_stop_ignored (s : Ushio) (b : Bool) :
    (s.rxState = PARITY → s.rxTick ≤ 1 →
      (rxFramerTick b s).rxState = STOP ∧ (rxFramerTick b s).rxTick = 4 ∧
      (rxFramerTick b s).rxBuf = s.rxBuf ∧ (rxFramerTick b s).rxWrite = s.rxWrite ∧
      (rxFramerTick b s).rxLog = s.rxLog) ∧
    (s.rxState = STOP → s.rxTick ≤ 1 →
      (rxFramerTick b s).rxState = IDLE ∧ (rxFramerTick b s).rxTick = 0 ∧
      (rxFramerTick b s).rxBuf = s.rxBuf ∧ (rxFramerTick b s).rxWrite = s.rxWrite ∧
      (rxFramerTick b s).rxLog = s.rxLog) := by
  constructor <;> intro h ht
  all_goals
    rcases (by omega : s.rxTick = 0 ∨ s.rxTick = 1) with h0 | h0 <;>
      simp [rxFramerTick, sampleRx, timersDec, rxHandle, h, h0]

/-- Witness for C8: a concrete due PARITY state and a concrete due STOP
state, with both sampled levels. -/
theorem c8_witness :
    ((rxFramerTick false (rxSt PARITY false true 1 true 0 (fun _ => 0) 3 400 [9])).rxState
        = STOP ∧
      (rxFramerTick false (rxSt PARITY false true 1 true 0 (fun _ => 0) 3 400 [9])).rxWrite
        = 3) ∧
    ((rxFramerTick true (rxSt STOP false true 1 true 0 (fun _ => 0) 3 400 [9])).rxState
        = IDLE ∧
      (rxFramerTick true (rxSt STOP false true 1 true 0 (fun _ => 0) 3 400 [9])).rxTick
        = 0) :=
  ⟨⟨((c8_parity_stop_ignored (rxSt PARITY false true 1 true 0 (fun _ => 0) 3 400 [9])
        false).1 rfl (by decide)).1,
    ((c8_parity_stop_ignored (rxSt PARITY false true 1 true 0 (fun _ => 0) 3 400 [9])
        false).1 rfl (by decide)).2.2.2.1⟩,
   ⟨((c8_parity_stop_ignored (rxSt STOP false true 1 true 0 (fun _ => 0) 3 400 [9])
        true).2 rfl (by decide)).1,
    ((c8_parity_stop_ignored (rxSt STOP false true 1 true 0 (fun _ => 0) 3 400 [9])
        true).2 rfl (by decide)).2.1⟩⟩

/-- Counterexample to C9 as stated: in the glitch situation (START state,
line sampled high) with a running idle-timeout (here 5), the timeout counter
is not unchanged — the ambient once-per-tick countdown still decrements it
to 4. -/
theorem c9_cex :
    (rxSt START true true 1 false 1 (fun _ => 0) 1 5 []).rxState = START ∧
    (rxFramerTick true (rxSt START true true 1 false 1 (fun _ => 0) 1 5 [])).rxState
      = IDLE ∧
    (rxFramerTick true (rxSt START true true 1 false 1 (fun _ => 0) 1 5 [])).rxTimeout
      ≠ (rxSt START true true 1 false 1 (fun _ => 0) 1 5 []).rxTimeout := by
  refine ⟨rfl, ?_, ?_⟩ <;> decide

/-- C9 (amended): if the receive framer is in START and the sampled level is
high, it returns to IDLE immediately with zero tick delay; the queue
contents, write cursor, parity accumulator and committed-byte log are all
unchanged and no byte is recorded; the idle-timeout counter is not touched
by the glitch handling beyond the ambient once-per-tick countdown
(decrement by one, floored at zero). -/
theorem c9_start_glitch (s : Ushio) (h : s.rxState = START) (ht : s.rxTick ≤ 1) :
    (rxFramerTick true s).rxState = IDLE ∧ (rxFramerTick true s).rxTick = 0 ∧
    (rxFramerTick true s).rxBuf = s.rxBuf ∧
    (rxFramerTick true s).rxWrite = s.rxWrite ∧
    (rxFramerTick true s).rxParity = s.rxParity ∧
    (rxFramerTick true s).rxLog = s.rxLog ∧
    (rxFramerTick true s).rxTimeout = s.rxTimeout - 1 := by
  have h01 : s.rxTick = 0 ∨ s.rxTick = 1 := by omega
  rcases h01 with h0 | h0 <;>
    simp [rxFramerTick, sampleRx, timersDec, rxHandle, h, h0] <;>
    omega

/-- Witness for C9 (amended) at a concrete glitch state. -/
theorem c9_witness :
    (rxFramerTick true (rxSt START true true 1 true 4 (fun _ => 7) 2 9 [3])).rxState
      = IDLE ∧
    (rxFramerTick true (rxSt START true true 1 true 4 (fun _ => 7) 2 9 [3])).rxWrite
      = 2 ∧
    (rxFramerTick true (rxSt START true true 1 true 4 (fun _ => 7) 2 9 [3])).rxTimeout
      = 8 :=
  ⟨(c9_start_glitch (rxSt START true true 1 true 4 (fun _ => 7) 2 9 [3]) rfl
      (by decide)).1,
   (c9_start_glitch (rxSt START true true 1 true 4 (fun _ => 7) 2 9 [3]) rfl
      (by decide)).2.2.2.1,
   (c9_start_glitch (rxSt START true true 1 true 4 (fun _ => 7) 2 9 [3]) rfl
      (by decide)).2.2.2.2.2.2⟩

theorem qScan_false_iff (buf : Nat → Nat) (qd : List Nat) :
    ∀ n len j, len - j ≤ n →
      (qScan buf qd len j = false ↔ ∀ m, j ≤ m → m < len → buf m = qd.getD m 0) := by
  intro n
  induction n with
  | zero =>
    intro len j h
    rw [qScan]
    have : ¬ j < len := by omega
    simp [this]
    omega
  | succ n ih =>
    intro len j h
    rw [qScan]
    by_cases hlt : j < len
    · simp only [hlt, if_true]
      by_cases hb : buf j = qd.getD j 0
      · simp only [hb, ne_eq, not_true_eq_false, if_false]
        rw [ih len (j + 1) (by omega)]
        constructor
        · intro hall m hm1 hm2
          rcases Nat.eq_or_lt_of_le hm1 with he | hl
          · rw [← he]; exact hb
          · exact hall m hl hm2
        · intro hall m hm1 hm2
          exact hall m (by omega) hm2
      · simp only [hb, ne_eq, not_false_eq_true, if_true]
        constructor
        · intro hfk; exact absurd hfk (by simp)
        · intro hall; exact absurd (hall j (le_refl j) hlt) hb
    · have : ¬ j < len := hlt
      simp [this]
      omega

theorem USHIO_QUERIES_eq : USHIO_QUERIES = 5 := rfl

theorem matchLoop_found (s : Ushio) :
    ∀ n i fl, USHIO_QUERIES - i ≤ n → fl < 4 →
      (∃ j, i ≤ j ∧ j < USHIO_QUERIES ∧ entryMatches s j) →
      (matchLoop s i fl).1 = 0 := by
  intro n
  induction n with
  | zero =>
    intro i fl h _ hex
    obtain ⟨j, hj1, hj2, _⟩ := hex
    rw [USHIO_QUERIES_eq] at h hj2
    omega
  | succ n ih =>
    intro i fl h hfl hex
    have hi : i < USHIO_QUERIES := by
      obtain ⟨j, hj1, hj2, _⟩ := hex
      omega
    rw [matchLoop]
    simp only [hi, if_true]
    by_cases hmi : entryMatches s i
    · obtain ⟨hlen, hscan⟩ := hmi
      simp only [hlen, if_true, hscan, Bool.false_eq_true, if_false]
      have h1 : (fl &&& 254) &&& 1 = 0 := by interval_cases fl <;> decide
      simp [h1]
    · have hex2 : ∃ j, i + 1 ≤ j ∧ j < USHIO_QUERIES ∧ entryMatches s j := by
        obtain ⟨j, hj1, hj2, hj3⟩ := hex
        refine ⟨j, ?_, hj2, hj3⟩
        rcases Nat.eq_or_lt_of_le hj1 with he | hl
        · exact absurd (he ▸ hj3) hmi
        · omega
      have hn2 : USHIO_QUERIES - (i + 1) ≤ n := by
        rw [USHIO_QUERIES_eq] at h ⊢; omega
      by_cases hlen : (qEntry i).qLength ≤ s.rxWrite
      · have hscan : qScan s.rxBuf (qEntry i).qData (qEntry i).qLength 0 = true := by
          cases hsc : qScan s.rxBuf (qEntry i).qData (qEntry i).qLength 0 with
          | false => exact absurd ⟨hlen, hsc⟩ hmi
          | true => rfl
        simp only [hlen, if_true, hscan, if_true]
        have h1 : ¬ ((fl &&& 254) ||| 1) &&& 1 = 0 := by interval_cases fl <;> decide
        simp only [h1, if_false]
        exact ih (i + 1) _ hn2 (by interval_cases fl <;> decide) hex2
      · simp only [hlen, if_false]
        exact ih (i + 1) _ hn2 (by interval_cases fl <;> decide) hex2

theorem matchLoop_notfound (s : Ushio) :
    ∀ n i fl, USHIO_QUERIES - i ≤ n → fl < 4 →
      (∀ j, i ≤ j → j < USHIO_QUERIES → ¬ entryMatches s j) →
      (matchLoop s i fl).2 = s ∧
      ((matchLoop s i fl).1 &&& 2 = 0 ↔
        (fl &&& 2 = 0 ∧ ∀ j, i ≤ j → j < USHIO_QUERIES →
          (qEntry j).qLength ≤ s.rxWrite)) ∧
      (i < USHIO_QUERIES → (matchLoop s i fl).1 ≠ 0) := by
  intro n
  induction n with
  | zero =>
    intro i fl h hfl hall
    have hi : ¬ i < USHIO_QUERIES := by rw [USHIO_QUERIES_eq] at h ⊢; omega
    rw [matchLoop, if_neg hi]
    refine ⟨rfl, ?_, fun hc => absurd hc hi⟩
    constructor
    · intro h2
      exact ⟨h2, fun j hj1 hj2 => absurd hj2 (by omega)⟩
    · intro hand
      exact hand.1
  | succ n ih =>
    intro i fl hn hfl hall
    by_cases hi : i < USHIO_QUERIES
    · rw [matchLoop]
      simp only [hi, if_true]
      have hni : ¬ entryMatches s i := hall i (le_refl i) hi
      have hn2 : USHIO_QUERIES - (i + 1) ≤ n := by
        rw [USHIO_QUERIES_eq] at hn ⊢; omega
      by_cases hlen : (qEntry i).qLength ≤ s.rxWrite
      · have hscan : qScan s.rxBuf (qEntry i).qData (qEntry i).qLength 0 = true := by
          cases hsc : qScan s.rxBuf (qEntry i).qData (qEntry i).qLength 0 with
          | false => exact absurd ⟨hlen, hsc⟩ hni
          | true => rfl
        simp only [hlen, if_true, hscan, if_true]
        have h1 : ¬ ((fl &&& 254) ||| 1) &&& 1 = 0 := by interval_cases fl <;> decide
        simp only [h1, if_false]
        have hrec := ih (i + 1) ((fl &&& 254) ||| 1) hn2
          (by interval_cases fl <;> decide)
          (fun j hj1 hj2 => hall j (by omega) hj2)
        refine ⟨hrec.1, ?_, fun _ => ?_⟩
        · rw [hrec.2.1]
          have hb2 : ((fl &&& 254) ||| 1) &&& 2 = fl &&& 2 := by
            interval_cases fl <;> decide
          rw [hb2]
          constructor
          · intro hand
            refine ⟨hand.1, fun j hj1 hj2 => ?_⟩
            rcases Nat.eq_or_lt_of_le hj1 with he | hl
            · rw [← he]; exact hlen
            · exact hand.2 j hl hj2
          · intro hand
            exact ⟨hand.1, fun j hj1 hj2 => hand.2 j (by omega) hj2⟩
        · by_cases hfin : i + 1 < USHIO_QUERIES
          · exact hrec.2.2 hfin
          · rw [matchLoop]
            simp only [hfin, if_false]
            interval_cases fl <;> decide
      · simp only [hlen, if_false]
        have hrec := ih (i + 1) ((fl &&& 254) ||| 2) hn2
          (by interval_cases fl <;> decide)
          (fun j hj1 hj2 => hall j (by omega) hj2)
        refine ⟨hrec.1, ?_, fun _ => ?_⟩
        · rw [hrec.2.1]
          have hb2 : ¬ ((fl &&& 254) ||| 2) &&& 2 = 0 := by
            interval_cases fl <;> decide
          simp only [hb2, false_and, false_iff]
          intro hand
          exact hlen (hand.2 i (le_refl i) hi)
        · by_cases hfin : i + 1 < USHIO_QUERIES
          · exact hrec.2.2 hfin
          · rw [matchLoop]
            simp only [hfin, if_false]
            interval_cases fl <;> decide
    · rw [matchLoop, if_neg hi]
      refine ⟨rfl, ?_, fun hc => absurd hc hi⟩
      constructor
      · intro h2
        exact ⟨h2, fun j hj1 hj2 => absurd hj2 (by omega)⟩
      · intro hand
        exact hand.1

/-- C7: on a tick where the receive framer is IDLE and the receive queue is
non-empty, the matcher clears the receive queue (cursors reset, idle timeout
zeroed) exactly when a match was handled, or no table entry needs more bytes
than are buffered, or the idle timeout has reached zero; otherwise the queue
contents and cursors are left intact. -/
theorem c7_clear_condition (s : Ushio) (hst : s.rxState = IDLE) (hw : 0 < s.rxWrite) :
    (rxCleared (matchStep s) ↔ (queueHandled s ∨ noneLonger s ∨ s.rxTimeout = 0)) ∧
    (¬ (queueHandled s ∨ noneLonger s ∨ s.rxTimeout = 0) →
      (matchStep s).rxBuf = s.rxBuf ∧ (matchStep s).rxWrite = s.rxWrite ∧
      (matchStep s).rxRead = s.rxRead ∧ (matchStep s).rxTimeout = s.rxTimeout) := by
  unfold matchStep
  rw [if_pos ⟨hst, hw⟩]
  by_cases hh : queueHandled s
  · obtain ⟨j, hj1, hj2⟩ := hh
    have hf := matchLoop_found s USHIO_QUERIES 0 0 (by omega) (by decide)
      ⟨j, Nat.zero_le j, hj1, hj2⟩
    rw [if_pos (Or.inl hf)]
    constructor
    · exact ⟨fun _ => Or.inl ⟨j, hj1, hj2⟩, fun _ => ⟨rfl, rfl, rfl⟩⟩
    · intro hc
      exact absurd (Or.inl ⟨j, hj1, hj2⟩) hc
  · have hnall : ∀ j, 0 ≤ j → j < USHIO_QUERIES → ¬ entryMatches s j :=
      fun j _ hj hm => hh ⟨j, hj, hm⟩
    have hr := matchLoop_notfound s USHIO_QUERIES 0 0 (by omega) (by decide) hnall
    have htimeq : (matchLoop s 0 0).2.rxTimeout = s.rxTimeout := by rw [hr.1]
    have hand2 : ((matchLoop s 0 0).1 &&& 2 = 0 ↔ noneLonger s) := by
      rw [hr.2.1]
      constructor
      · intro hx
        exact fun i hi => hx.2 i (Nat.zero_le i) hi
      · intro hx
        exact ⟨by decide, fun j _ hj => hx j hj⟩
    have hne : (matchLoop s 0 0).1 ≠ 0 := hr.2.2 (by decide)
    by_cases hcl : noneLonger s ∨ s.rxTimeout = 0
    · have hcond : (matchLoop s 0 0).1 = 0 ∨ (matchLoop s 0 0).1 &&& 2 = 0 ∨
          (matchLoop s 0 0).2.rxTimeout = 0 := by
        rcases hcl with hnl | hto
        · exact Or.inr (Or.inl (hand2.mpr hnl))
        · exact Or.inr (Or.inr (htimeq ▸ hto))
      rw [if_pos hcond]
      constructor
      · exact ⟨fun _ => Or.inr hcl, fun _ => ⟨rfl, rfl, rfl⟩⟩
      · intro hc
        exact absurd (Or.inr hcl) hc
    · have hcond : ¬ ((matchLoop s 0 0).1 = 0 ∨ (matchLoop s 0 0).1 &&& 2 = 0 ∨
          (matchLoop s 0 0).2.rxTimeout = 0) := by
        intro hor
        rcases hor with h0 | h2 | ht
        · exact hne h0
        · exact hcl (Or.inl (hand2.mp h2))
        · exact hcl (Or.inr (htimeq ▸ ht))
      rw [if_neg hcond]
      rw [hr.1]
      constructor
      · constructor
        · intro hcle
          exact absurd hcle.1 (by omega)
        · intro hor
          exact absurd hor (fun hor2 => hcl (hor2.resolve_left hh))
      · intro _
        exact ⟨rfl, rfl, rfl, rfl⟩

/-- Witness for C7: a buffered lone `4C` byte with a running timeout — no
match, entries 1 and 4 still need more bytes, so the queue is left intact;
and the same buffer with the timeout at zero is cleared. -/
theorem c7_witness :
    (¬ rxCleared (matchStep (rxSt IDLE true true 0 false 1
        (fun i => [0x4C].getD i 0) 1 77 [])) ∧
      (matchStep (rxSt IDLE true true 0 false 1
        (fun i => [0x4C].getD i 0) 1 77 [])).rxWrite = 1) ∧
    rxCleared (matchStep (rxSt IDLE true true 0 false 1
        (fun i => [0x4C].getD i 0) 1 0 [])) := by
  have hnh : ¬ queueHandled (rxSt IDLE true true 0 false 1
      (fun i => [0x4C].getD i 0) 1 77 []) := by
    intro ⟨i, hi, hlen, hsc⟩
    rw [USHIO_QUERIES_eq] at hi
    interval_cases i <;> revert hsc <;>
      simp [qEntry, ushioQuery, rxSt, qScan]
  have hnl : ¬ noneLonger (rxSt IDLE true true 0 false 1
      (fun i => [0x4C].getD i 0) 1 77 []) := by
    intro hx
    have := hx 1 (by decide)
    revert this
    simp [qEntry, ushioQuery, rxSt]
  have hno : ¬ (queueHandled (rxSt IDLE true true 0 false 1
      (fun i => [0x4C].getD i 0) 1 77 []) ∨
      noneLonger (rxSt IDLE true true 0 false 1
      (fun i => [0x4C].getD i 0) 1 77 []) ∨
      (rxSt IDLE true true 0 false 1 (fun i => [0x4C].getD i 0) 1 77 []).rxTimeout
        = 0) := by
    intro hor
    rcases hor with h | h | h
    · exact hnh h
    · exact hnl h
    · exact absurd h (by simp [rxSt])
  constructor
  · constructor
    · intro hcle
      exact hno ((c7_clear_condition _ rfl (by decide)).1.mp hcle)
    · exact ((c7_clear_condition _ rfl (by decide)).2 hno).2.1
  · exact (c7_clear_condition _ rfl (by decide)).1.mpr (Or.inr (Or.inr rfl))

theorem matchLoop_hit (s : Ushio) :
    ∀ n i fl, USHIO_QUERIES - i ≤ n → fl < 4 →
      ∀ m, i ≤ m → m < USHIO_QUERIES → entryMatches s m →
      (∀ j, i ≤ j → j < m → ¬ entryMatches s j) →
      matchLoop s i fl = (0,
        if s.txWrite + (qEntry m).rLength < UARTTXMASK then
          { s with txBuf := (appendReply s.txBuf s.txWrite (qEntry m).rData).1,
                   txWrite := (appendReply s.txBuf s.txWrite (qEntry m).rData).2 }
        else s) := by
  intro n
  induction n with
  | zero =>
    intro i fl h _ m hm1 hm2 _ _
    rw [USHIO_QUERIES_eq] at h hm2
    omega
  | succ n ih =>
    intro i fl h hfl m hm1 hm2 hmm hfirst
    have hi : i < USHIO_QUERIES := by omega
    rw [matchLoop]
    simp only [hi, if_true]
    rcases Nat.eq_or_lt_of_le hm1 with he | hl
    · obtain ⟨hlen, hscan⟩ := he ▸ hmm
      simp only [hlen, if_true, hscan, Bool.false_eq_true, if_false]
      have h1 : (fl &&& 254) &&& 1 = 0 := by interval_cases fl <;> decide
      simp only [h1, if_true]
      rw [← he]
    · have hni : ¬ entryMatches s i := hfirst i (le_refl i) hl
      have hn2 : USHIO_QUERIES - (i + 1) ≤ n := by
        rw [USHIO_QUERIES_eq] at h ⊢; omega
      by_cases hlen : (qEntry i).qLength ≤ s.rxWrite
      · have hscan : qScan s.rxBuf (qEntry i).qData (qEntry i).qLength 0 = true := by
          cases hsc : qScan s.rxBuf (qEntry i).qData (qEntry i).qLength 0 with
          | false => exact absurd ⟨hlen, hsc⟩ hni
          | true => rfl
        simp only [hlen, if_true, hscan, if_true]
        have h1 : ¬ ((fl &&& 254) ||| 1) &&& 1 = 0 := by interval_cases fl <;> decide
        simp only [h1, if_false]
        exact ih (i + 1) _ hn2 (by interval_cases fl <;> decide) m (by omega) hm2 hmm
          (fun j hj1 hj2 => hfirst j (by omega) hj2)
      · simp only [hlen, if_false]
        exact ih (i + 1) _ hn2 (by interval_cases fl <;> decide) m (by omega) hm2 hmm
          (fun j hj1 hj2 => hfirst j (by omega) hj2)

theorem matchStep_hit (s : Ushio) (hst : s.rxState = IDLE) (hw : 0 < s.rxWrite)
    (m : Nat) (hm : m < USHIO_QUERIES) (hmm : entryMatches s m)
    (hfirst : ∀ j, j < m → ¬ entryMatches s j)
    (hroom : s.txWrite + (qEntry m).rLength < UARTTXMASK) :
    matchStep s = { s with
      txBuf := (appendReply s.txBuf s.txWrite (qEntry m).rData).1,
      txWrite := (appendReply s.txBuf s.txWrite (qEntry m).rData).2,
      rxWrite := 0, rxRead := 0, rxTimeout := 0 } := by
  unfold matchStep
  rw [if_pos ⟨hst, hw⟩]
  rw [matchLoop_hit s USHIO_QUERIES 0 0 (by omega) (by decide) m (Nat.zero_le m)
    hm hmm (fun j _ hj2 => hfirst j hj2)]
  rw [if_pos hroom]
  rfl

theorem qScan_false_of (buf : Nat → Nat) (qd : List Nat) (len : Nat)
    (h : ∀ m, m < len → buf m = qd.getD m 0) : qScan buf qd len 0 = false :=
  (qScan_false_iff buf qd len len 0 (by omega)).mpr (fun m _ hm => h m hm)

theorem qScan_true_of (buf : Nat → Nat) (qd : List Nat) (len m : Nat)
    (hm : m < len) (hne : buf m ≠ qd.getD m 0) : qScan buf qd len 0 = true := by
  cases h : qScan buf qd len 0 with
  | false =>
    exact absurd ((qScan_false_iff buf qd len len 0 (by omega)).mp h m
      (Nat.zero_le m) hm) hne
  | true => rfl

theorem matchStep_append_spec (s : Ushio) (m : Nat) (hm : m < USHIO_QUERIES)
    (hst : s.rxState = IDLE) (hw : 0 < s.rxWrite)
    (hmm : entryMatches s m) (hfirst : ∀ j, j < m → ¬ entryMatches s j)
    (rep : List Nat) (hrep : (qEntry m).rData = rep)
    (hlen2 : (qEntry m).rLength = rep.length)
    (hroom : s.txWrite + rep.length < 15) :
    (matchStep s).txWrite = s.txWrite + rep.length ∧
    (∀ i, i < rep.length → (matchStep s).txBuf (s.txWrite + i) = rep.getD i 0) ∧
    (∀ k, k < s.txWrite ∨ s.txWrite + rep.length ≤ k →
      (matchStep s).txBuf k = s.txBuf k) ∧
    (matchStep s).rxWrite = 0 ∧ (matchStep s).rxRead = 0 ∧
    (matchStep s).rxTimeout = 0 := by
  rw [matchStep_hit s hst hw m hm hmm hfirst
    (by rw [hlen2]; simpa [UARTTXMASK] using hroom)]
  rw [hrep]
  refine ⟨?_, ?_, ?_, rfl, rfl, rfl⟩
  · exact appendReply_snd rep s.txBuf s.txWrite (by omega)
  · intro i hi
    exact appendReply_at rep s.txBuf s.txWrite (by omega) i hi
  · intro k hk
    exact appendReply_keep rep s.txBuf s.txWrite (by omega) k hk

/-- C1: for each listed command (`51 0D`, `4C 46 0D`, `50 0D`, `4C 45 0D`),
if the receive queue holds exactly that command, the receive framer is IDLE
and the transmit queue has room for the reply, then one matcher step appends
exactly that command's reply (`51 32 0D`, `41 0D`, `50 46 0D`, `41 0D`
respectively) to the transmit queue and clears the receive queue (both
cursors reset to zero). -/
theorem c1_commands_reply (s : Ushio) (hst : s.rxState = IDLE) :
    (s.rxWrite = 2 → s.rxBuf 0 = 0x51 → s.rxBuf 1 = 0x0D →
      s.txWrite + 3 < 15 →
      (matchStep s).txWrite = s.txWrite + 3 ∧
      (matchStep s).txBuf s.txWrite = 0x51 ∧
      (matchStep s).txBuf (s.txWrite + 1) = 0x32 ∧
      (matchStep s).txBuf (s.txWrite + 2) = 0x0D ∧
      (∀ k, k < s.txWrite ∨ s.txWrite + 3 ≤ k →
        (matchStep s).txBuf k = s.txBuf k) ∧
      (matchStep s).rxWrite = 0 ∧ (matchStep s).rxRead = 0) ∧
    (s.rxWrite = 3 → s.rxBuf 0 = 0x4C → s.rxBuf 1 = 0x46 → s.rxBuf 2 = 0x0D →
      s.txWrite + 2 < 15 →
      (matchStep s).txWrite = s.txWrite + 2 ∧
      (matchStep s).txBuf s.txWrite = 0x41 ∧
      (matchStep s).txBuf (s.txWrite + 1) = 0x0D ∧
      (∀ k, k < s.txWrite ∨ s.txWrite + 2 ≤ k →
        (matchStep s).txBuf k = s.txBuf k) ∧
      (matchStep s).rxWrite = 0 ∧ (matchStep s).rxRead = 0) ∧
    (s.rxWrite = 2 → s.rxBuf 0 = 0x50 → s.rxBuf 1 = 0x0D →
      s.txWrite + 3 < 15 →
      (matchStep s).txWrite = s.txWrite + 3 ∧
      (matchStep s).txBuf s.txWrite = 0x50 ∧
      (matchStep s).txBuf (s.txWrite + 1) = 0x46 ∧
      (matchStep s).txBuf (s.txWrite + 2) = 0x0D ∧
      (∀ k, k < s.txWrite ∨ s.txWrite + 3 ≤ k →
        (matchStep s).txBuf k = s.txBuf k) ∧
      (matchStep s).rxWrite = 0 ∧ (matchStep s).rxRead = 0) ∧
    (s.rxWrite = 3 → s.rxBuf 0 = 0x4C → s.rxBuf 1 = 0x45 → s.rxBuf 2 = 0x0D →
      s.txWrite + 2 < 15 →
      (matchStep s).txWrite = s.txWrite + 2 ∧
      (matchStep s).txBuf s.txWrite = 0x41 ∧
      (matchStep s).txBuf (s.txWrite + 1) = 0x0D ∧
      (∀ k, k < s.txWrite ∨ s.txWrite + 2 ≤ k →
        (matchStep s).txBuf k = s.txBuf k) ∧
      (matchStep s).rxWrite = 0 ∧ (matchStep s).rxRead = 0) := by
  refine ⟨?_, ?_, ?_, ?_⟩
  · intro hw h0 h1 hroom
    have hmm : entryMatches s 0 := by
      refine ⟨by simp [qEntry, ushioQuery, hw], ?_⟩
      apply qScan_false_of
      intro m hm
      simp [qEntry, ushioQuery] at hm ⊢
      interval_cases m
      · simpa using h0
      · simpa using h1
    have hsp := matchStep_append_spec s 0 (by decide) hst (by omega) hmm
      (by omega) [0x51, 0x32, 0x0D] (by simp [qEntry, ushioQuery])
      (by simp [qEntry, ushioQuery]) (by simpa using hroom)
    refine ⟨by simpa using hsp.1, ?_, ?_, ?_, fun k hk => hsp.2.2.1 k (by simpa using hk),
      hsp.2.2.2.1, hsp.2.2.2.2.1⟩
    · have := hsp.2.1 0 (by decide); simpa using this
    · have := hsp.2.1 1 (by decide); simpa using this
    · have := hsp.2.1 2 (by decide); simpa using this
  · intro hw h0 h1 h2 hroom
    have hn0 : ¬ entryMatches s 0 := by
      intro hmm
      have := hmm.2
      rw [qScan_true_of s.rxBuf (qEntry 0).qData (qEntry 0).qLength 0
        (by simp [qEntry, ushioQuery]) (by simp [qEntry, ushioQuery, h0])] at this
      exact absurd this (by simp)
    have hmm : entryMatches s 1 := by
      refine ⟨by simp [qEntry, ushioQuery, hw], ?_⟩
      apply qScan_false_of
      intro m hm
      simp [qEntry, ushioQuery] at hm ⊢
      interval_cases m
      · simpa using h0
      · simpa using h1
      · simpa using h2
    have hsp := matchStep_append_spec s 1 (by decide) hst (by omega) hmm
      (by intro j hj; interval_cases j; exact hn0)
      [0x41, 0x0D] (by simp [qEntry, ushioQuery])
      (by simp [qEntry, ushioQuery]) (by simpa using hroom)
    refine ⟨by simpa using hsp.1, ?_, ?_, fun k hk => hsp.2.2.1 k (by simpa using hk),
      hsp.2.2.2.1, hsp.2.2.2.2.1⟩
    · have := hsp.2.1 0 (by decide); simpa using this
    · have := hsp.2.1 1 (by decide); simpa using this
  · intro hw h0 h1 hroom
    have hn0 : ¬ entryMatches s 0 := by
      intro hmm
      have := hmm.2
      rw [qScan_true_of s.rxBuf (qEntry 0).qData (qEntry 0).qLength 0
        (by simp [qEntry, ushioQuery]) (by simp [qEntry, ushioQuery, h0])] at this
      exact absurd this (by simp)
    have hn1 : ¬ entryMatches s 1 := by
      intro hmm
      have := hmm.1
      simp [qEntry, ushioQuery, hw] at this
    have hmm : entryMatches s 2 := by
      refine ⟨by simp [qEntry, ushioQuery, hw], ?_⟩
      apply qScan_false_of
      intro m hm
      simp [qEntry, ushioQuery] at hm ⊢
      interval_cases m
      · simpa using h0
      · simpa using h1
    have hsp := matchStep_append_spec s 2 (by decide) hst (by omega) hmm
      (by intro j hj; interval_cases j
          · exact hn0
          · exact hn1)
      [0x50, 0x46, 0x0D] (by simp [qEntry, ushioQuery])
      (by simp [qEntry, ushioQuery]) (by simpa using hroom)
    refine ⟨by simpa using hsp.1, ?_, ?_, ?_, fun k hk => hsp.2.2.1 k (by simpa using hk),
      hsp.2.2.2.1, hsp.2.2.2.2.1⟩
    · have := hsp.2.1 0 (by decide); simpa using this
    · have := hsp.2.1 1 (by decide); simpa using this
    · have := hsp.2.1 2 (by decide); simpa using this
  · intro hw h0 h1 h2 hroom
    have hn0 : ¬ entryMatches s 0 := by
      intro hmm
      have := hmm.2
      rw [qScan_true_of s.rxBuf (qEntry 0).qData (qEntry 0).qLength 0
        (by simp [qEntry, ushioQuery]) (by simp [qEntry, ushioQuery, h0])] at this
      exact absurd this (by simp)
    have hn1 : ¬ entryMatches s 1 := by
      intro hmm
      have := hmm.2
      rw [qScan_true_of s.rxBuf (qEntry 1).qData (qEntry 1).qLength 1
        (by simp [qEntry, ushioQuery]) (by simp [qEntry, ushioQuery, h1])] at this
      exact absurd this (by simp)
    have hn2 : ¬ entryMatches s 2 := by
      intro hmm
      have := hmm.2
      rw [qScan_true_of s.rxBuf (qEntry 2).qData (qEntry 2).qLength 0
        (by simp [qEntry, ushioQuery]) (by simp [qEntry, ushioQuery, h0])] at this
      exact absurd this (by simp)
    have hn3 : ¬ entryMatches s 3 := by
      intro hmm
      have := hmm.2
      rw [qScan_true_of s.rxBuf (qEntry 3).qData (qEntry 3).qLength 0
        (by simp [qEntry, ushioQuery]) (by simp [qEntry, ushioQuery, h0])] at this
      exact absurd this (by simp)
    have hmm : entryMatches s 4 := by
      refine ⟨by simp [qEntry, ushioQuery, hw], ?_⟩
      apply qScan_false_of
      intro m hm
      simp [qEntry, ushioQuery] at hm ⊢
      interval_cases m
      · simpa using h0
      · simpa using h1
      · simpa using h2
    have hsp := matchStep_append_spec s 4 (by decide) hst (by omega) hmm
      (by intro j hj; interval_cases j
          · exact hn0
          · exact hn1
          · exact hn2
          · exact hn3)
      [0x41, 0x0D] (by simp [qEntry, ushioQuery])
      (by simp [qEntry, ushioQuery]) (by simpa using hroom)
    refine ⟨by simpa using hsp.1, ?_, ?_, fun k hk => hsp.2.2.1 k (by simpa using hk),
      hsp.2.2.2.1, hsp.2.2.2.2.1⟩
    · have := hsp.2.1 0 (by decide); simpa using this
    · have := hsp.2.1 1 (by decide); simpa using this

/-- Witness for C1: the command `51 0D` buffered at a power-on-like state;
the reply `51 32 0D` is appended at the transmit write cursor and the
receive queue is cleared. -/
theorem c1_witness :
    (matchStep (rxSt IDLE true true 0 false 1
        (fun i => [0x51, 0x0D].getD i 0) 2 100 [])).txWrite =
      (rxSt IDLE true true 0 false 1
        (fun i => [0x51, 0x0D].getD i 0) 2 100 []).txWrite + 3 ∧
    (matchStep (rxSt IDLE true true 0 false 1
        (fun i => [0x51, 0x0D].getD i 0) 2 100 [])).txBuf
      (rxSt IDLE true true 0 false 1
        (fun i => [0x51, 0x0D].getD i 0) 2 100 []).txWrite = 0x51 ∧
    (matchStep (rxSt IDLE true true 0 false 1
        (fun i => [0x51, 0x0D].getD i 0) 2 100 [])).rxWrite = 0 :=
  ⟨((c1_commands_reply _ rfl).1 rfl rfl rfl (by decide)).1,
   ((c1_commands_reply _ rfl).1 rfl rfl rfl (by decide)).2.1,
   ((c1_commands_reply _ rfl).1 rfl rfl rfl (by decide)).2.2.2.2.2.1⟩

theorem entryMatches_byte (s : Ushio) (i m : Nat) (hmi : entryMatches s i)
    (hm : m < (qEntry i).qLength) :
    s.rxBuf m = (qEntry i).qData.getD m 0 :=
  (qScan_false_iff s.rxBuf (qEntry i).qData (qEntry i).qLength
    (qEntry i).qLength 0 (by omega)).mp hmi.2 m (Nat.zero_le m) hm

/-- C4: the matcher scans the table in fixed order and the first matching
entry wins.  For any two entries that both match the buffered bytes (in this
table only the duplicate `51 0D` entries can), the reply appended to the
transmit queue is exactly the reply of the entry earlier in the table, and
no later entry's reply is appended (the transmit buffer is unchanged outside
the earlier entry's reply region). -/
theorem c4_table_order_wins (s : Ushio) (hst : s.rxState = IDLE) (i j : Nat)
    (hij : i < j) (hj : j < USHIO_QUERIES)
    (hmi : entryMatches s i) (hmj : entryMatches s j)
    (hroom : s.txWrite + (qEntry i).rLength < 15) :
    (matchStep s).txWrite = s.txWrite + (qEntry i).rLength ∧
    (∀ k, k < (qEntry i).rLength →
      (matchStep s).txBuf (s.txWrite + k) = (qEntry i).rData.getD k 0) ∧
    (∀ k, k < s.txWrite ∨ s.txWrite + (qEntry i).rLength ≤ k →
      (matchStep s).txBuf k = s.txBuf k) := by
  rw [USHIO_QUERIES_eq] at hj
  have hw : 0 < s.rxWrite := by
    have h1 := hmj.1
    have h2 : 2 ≤ (qEntry j).qLength := by
      interval_cases j <;> simp [qEntry, ushioQuery]
    omega
  have hi5 : i < 5 := by omega
  interval_cases i <;> interval_cases j
  -- (0,1)
  · have a := entryMatches_byte s 0 0 hmi (by simp [qEntry, ushioQuery])
    have b := entryMatches_byte s 1 0 hmj (by simp [qEntry, ushioQuery])
    simp [qEntry, ushioQuery] at a b
    omega
  -- (0,2)
  · have a := entryMatches_byte s 0 0 hmi (by simp [qEntry, ushioQuery])
    have b := entryMatches_byte s 2 0 hmj (by simp [qEntry, ushioQuery])
    simp [qEntry, ushioQuery] at a b
    omega
  -- (0,3) : the genuine duplicate pair
  · have hsp := matchStep_append_spec s 0 (by decide) hst hw hmi (by omega)
      [0x51, 0x32, 0x0D] (by simp [qEntry, ushioQuery])
      (by simp [qEntry, ushioQuery])
      (by simpa [qEntry, ushioQuery] using hroom)
    refine ⟨?_, ?_, ?_⟩
    · simpa [qEntry, ushioQuery] using hsp.1
    · intro k hk
      simp [qEntry, ushioQuery] at hk ⊢
      have := hsp.2.1 k (by simpa using hk)
      simpa using this
    · intro k hk
      exact hsp.2.2.1 k (by simpa [qEntry, ushioQuery] using hk)
  -- (0,4)
  · have a := entryMatches_byte s 0 0 hmi (by simp [qEntry, ushioQuery])
    have b := entryMatches_byte s 4 0 hmj (by simp [qEntry, ushioQuery])
    simp [qEntry, ushioQuery] at a b
    omega
  -- (1,2)
  · have a := entryMatches_byte s 1 0 hmi (by simp [qEntry, ushioQuery])
    have b := entryMatches_byte s 2 0 hmj (by simp [qEntry, ushioQuery])
    simp [qEntry, ushioQuery] at a b
    omega
  -- (1,3)
  · have a := entryMatches_byte s 1 0 hmi (by simp [qEntry, ushioQuery])
    have b := entryMatches_byte s 3 0 hmj (by simp [qEntry, ushioQuery])
    simp [qEntry, ushioQuery] at a b
    omega
  -- (1,4)
  · have a := entryMatches_byte s 1 1 hmi (by simp [qEntry, ushioQuery])
    have b := entryMatches_byte s 4 1 hmj (by simp [qEntry, ushioQuery])
    simp [qEntry, ushioQuery] at a b
    omega
  -- (2,3)
  · have a := entryMatches_byte s 2 0 hmi (by simp [qEntry, ushioQuery])
    have b := entryMatches_byte s 3 0 hmj (by simp [qEntry, ushioQuery])
    simp [qEntry, ushioQuery] at a b
    omega
  -- (2,4)
  · have a := entryMatches_byte s 2 0 hmi (by simp [qEntry, ushioQuery])
    have b := entryMatches_byte s 4 0 hmj (by simp [qEntry, ushioQuery])
    simp [qEntry, ushioQuery] at a b
    omega
  -- (3,4)
  · have a := entryMatches_byte s 3 0 hmi (by simp [qEntry, ushioQuery])
    have b := entryMatches_byte s 4 0 hmj (by simp [qEntry, ushioQuery])
    simp [qEntry, ushioQuery] at a b
    omega

/-- Witness for C4: `51 0D` buffered matches both duplicate entries 0 and 3;
entry 0's reply is the one appended. -/
theorem c4_witness :
    (matchStep (rxSt IDLE true true 0 false 1
        (fun i => [0x51, 0x0D].getD i 0) 2 100 [])).txWrite = 0 + 3 ∧
    (matchStep (rxSt IDLE true true 0 false 1
        (fun i => [0x51, 0x0D].getD i 0) 2 100 [])).txBuf (0 + 1) = 0x32 := by
  have hm0 : entryMatches (rxSt IDLE true true 0 false 1
      (fun i => [0x51, 0x0D].getD i 0) 2 100 []) 0 := by
    refine ⟨by simp [qEntry, ushioQuery, rxSt], ?_⟩
    apply qScan_false_of
    intro m hm
    simp [qEntry, ushioQuery] at hm
    interval_cases m <;> simp [qEntry, ushioQuery, rxSt]
  have hm3 : entryMatches (rxSt IDLE true true 0 false 1
      (fun i => [0x51, 0x0D].getD i 0) 2 100 []) 3 := by
    refine ⟨by simp [qEntry, ushioQuery, rxSt], ?_⟩
    apply qScan_false_of
    intro m hm
    simp [qEntry, ushioQuery] at hm
    interval_cases m <;> simp [qEntry, ushioQuery, rxSt]
  have h := c4_table_order_wins (rxSt IDLE true true 0 false 1
      (fun i => [0x51, 0x0D].getD i 0) 2 100 []) rfl 0 3 (by omega) (by decide)
    hm0 hm3 (by simp [qEntry, ushioQuery, rxSt])
  refine ⟨by simpa [qEntry, ushioQuery, rxSt] using h.1, ?_⟩
  have := h.2.1 1 (by simp [qEntry, ushioQuery])
  simpa [qEntry, ushioQuery, rxSt] using this

/-- C10: every transmit-buffer write the protocol matcher performs is at an
index strictly below the buffer capacity 16 (the guard
`uartTxWrite + rLength < 15` keeps the appended reply in bounds, no
wraparound), and whenever the guard fails for the matched entry — the first
matching table entry — no transmit-buffer byte is written at all and the
transmit cursor does not move. -/
theorem c10_matchStep_tx_in_bounds (s : Ushio) (k : Nat) :
    (16 ≤ k → (matchStep s).txBuf k = s.txBuf k) ∧
    (∀ m, m < USHIO_QUERIES → entryMatches s m →
      (∀ j, j < m → ¬ entryMatches s j) →
      ¬ (s.txWrite + (qEntry m).rLength < 15) →
      (matchStep s).txBuf k = s.txBuf k ∧ (matchStep s).txWrite = s.txWrite) := by
  constructor
  · intro hk
    have hm := matchLoop_tx_bounded s USHIO_QUERIES 0 0 (by omega)
    unfold matchStep
    by_cases hg : s.rxState = IDLE ∧ 0 < s.rxWrite
    · rw [if_pos hg]
      by_cases hcl : (matchLoop s 0 0).1 = 0 ∨ (matchLoop s 0 0).1 &&& 2 = 0 ∨
          (matchLoop s 0 0).2.rxTimeout = 0
      · rw [if_pos hcl]
        exact hm.1 k (by omega)
      · rw [if_neg hcl]
        exact hm.1 k (by omega)
    · rw [if_neg hg]
  · intro m hm hmm hfirst hroom
    by_cases hg : s.rxState = IDLE ∧ 0 < s.rxWrite
    · have hml := matchLoop_hit s USHIO_QUERIES 0 0 (by omega) (by decide) m
        (Nat.zero_le m) hm hmm (fun j _ hj => hfirst j hj)
      rw [if_neg (by simpa [UARTTXMASK] using hroom)] at hml
      unfold matchStep
      rw [if_pos hg, hml, if_pos (Or.inl rfl)]
      exact ⟨rfl, rfl⟩
    · unfold matchStep
      rw [if_neg hg]
      exact ⟨rfl, rfl⟩

/-- Witness for C10 at a concrete state: the command `51 0D` is buffered and
matches entry 0 (3-byte reply) with the transmit cursor at 12, so the room
guard `12 + 3 < 15` fails and nothing is written. -/
theorem c10_witness :
    (matchStep { ushioInit with
      rxBuf := fun i => [0x51, 0x0D].getD i 0,
      rxWrite := 2,
      txWrite := 12 }).txBuf 0 =
      ({ ushioInit with
        rxBuf := fun i => [0x51, 0x0D].getD i 0,
        rxWrite := 2,
        txWrite := 12 } : Ushio).txBuf 0 ∧
    (matchStep { ushioInit with
      rxBuf := fun i => [0x51, 0x0D].getD i 0,
      rxWrite := 2,
      txWrite := 12 }).txWrite = 12 ∧
    (matchStep { ushioInit with
      rxBuf := fun i => [0x51, 0x0D].getD i 0,
      rxWrite := 2,
      txWrite := 12 }).txBuf 16 =
      ({ ushioInit with
        rxBuf := fun i => [0x51, 0x0D].getD i 0,
        rxWrite := 2,
        txWrite := 12 } : Ushio).txBuf 16 := by
  have hmm : entryMatches { ushioInit with
      rxBuf := fun i => [0x51, 0x0D].getD i 0,
      rxWrite := 2,
      txWrite := 12 } 0 := by
    refine ⟨by simp [qEntry, ushioQuery], ?_⟩
    apply qScan_false_of
    intro m hm
    simp [qEntry, ushioQuery] at hm
    interval_cases m <;> simp [qEntry, ushioQuery]
  refine ⟨?_, ?_, ?_⟩
  · exact ((c10_matchStep_tx_in_bounds _ 0).2 0 (by decide) hmm
      (by intro j hj; omega) (by simp [qEntry, ushioQuery])).1
  · exact ((c10_matchStep_tx_in_bounds _ 0).2 0 (by decide) hmm
      (by intro j hj; omega) (by simp [qEntry, ushioQuery])).2
  · exact (c10_matchStep_tx_in_bounds _ 16).1 (by omega)

/-! ## Transmit framer: per-tick, per-bit-phase and per-byte behaviour -/

theorem land_two_pow_ne (v k : Nat) : (v &&& 2 ^ k ≠ 0) ↔ v.testBit k = true := by
  rw [Nat.and_two_pow]
  cases h : v.testBit k <;> simp [h]

theorem land15_eq (n : Nat) : n &&& 15 = n % 16 := by
  simpa using Nat.and_pow_two_sub_one_eq_mod n 4

theorem tx_tick_dec (st : UartState) (hst : st ≠ IDLE) (x p : Bool) (m : Nat)
    (buf : Nat → Nat) (w r t : Nat) (ht : 1 < t) :
    txFramerTick (txSt st x p m buf w r t) = txSt st x p m buf w r (t - 1) := by
  have h1 : t ≠ 0 := by omega
  have h2 : ¬ (t - 1 = 0) := by omega
  simp [txFramerTick, timersDec, txStepB, txSched, txSt, h1, h2, hst]

theorem tx_tick_start (x p : Bool) (m : Nat) (buf : Nat → Nat) (w r : Nat) :
    txFramerTick (txSt START x p m buf w r 1) = txSt DATA false false 1 buf w r 4 := by
  simp [txFramerTick, timersDec, txStepB, txSched, txSt]

theorem tx_tick_data (k : Nat) (hk : k < 7) (x p : Bool) (buf : Nat → Nat) (w r : Nat) :
    txFramerTick (txSt DATA x p (2 ^ k) buf w r 1) =
      txSt DATA ((buf r).testBit k) (p ^^ (buf r).testBit k) (2 ^ (k + 1)) buf w r 4 := by
  have hmod : 2 ^ k * 2 % 256 = 2 ^ (k + 1) := by
    rw [← pow_succ]
    exact Nat.mod_eq_of_lt (lt_of_le_of_lt
      (Nat.pow_le_pow_right (by norm_num) (by omega)) (by norm_num : (2:Nat)^7 < 256))
  have hne : ¬ (2 ^ (k + 1) = 0) := by positivity
  by_cases hb : (buf r).testBit k
  · have hc : (buf r) &&& 2 ^ k ≠ 0 := (land_two_pow_ne _ _).mpr hb
    simp [txFramerTick, timersDec, txStepB, txSched, txSt, hc, hmod, hne, hb,
      Bool.xor_true]
  · have hc : ¬ ((buf r) &&& 2 ^ k ≠ 0) := by rw [land_two_pow_ne]; simp [hb]
    simp [txFramerTick, timersDec, txStepB, txSched, txSt, hc, hmod, hne, hb,
      Bool.xor_false]

theorem tx_tick_data7 (x p : Bool) (buf : Nat → Nat) (w r : Nat) :
    txFramerTick (txSt DATA x p 128 buf w r 1) =
      txSt PARITY ((buf r).testBit 7) (p ^^ (buf r).testBit 7) 0 buf w ((r + 1) % 16) 4 := by
  have hc : ((buf r) &&& 128 ≠ 0) ↔ (buf r).testBit 7 = true := by
    have := land_two_pow_ne (buf r) 7
    norm_num at this
    exact this
  by_cases hb : (buf r).testBit 7
  · have hcc : (buf r) &&& 128 ≠ 0 := hc.mpr hb
    simp [txFramerTick, timersDec, txStepB, txSched, txSt, UARTTXMASK, hcc, hb,
      Bool.xor_true, land15_eq]
  · have hcc : ¬ ((buf r) &&& 128 ≠ 0) := by rw [hc]; simp [hb]
    simp [txFramerTick, timersDec, txStepB, txSched, txSt, UARTTXMASK, hcc, hb,
      Bool.xor_false, land15_eq]

theorem tx_tick_parity (x p : Bool) (buf : Nat → Nat) (w r : Nat) :
    txFramerTick (txSt PARITY x p 0 buf w r 1) = txSt STOP p p 0 buf w r 4 := by
  simp [txFramerTick, timersDec, txStepB, txSched, txSt]

theorem tx_tick_stop (x p : Bool) (buf : Nat → Nat) (w r : Nat) :
    txFramerTick (txSt STOP x p 0 buf w r 1) =
      if r < w then txSt START true p 0 buf w r 4
      else txSt IDLE true p 0 buf 0 0 4 := by
  by_cases hrw : r < w <;>
    simp [txFramerTick, timersDec, txStepB, txSched, txSt, hrw]

theorem tx_tick_dec_idle (p : Bool) (m : Nat) (buf : Nat → Nat) (t : Nat) (ht : 1 < t) :
    txFramerTick (txSt IDLE true p m buf 0 0 t) = txSt IDLE true p m buf 0 0 (t - 1) := by
  have h1 : t ≠ 0 := by omega
  have h2 : ¬ (t - 1 = 0) := by omega
  simp [txFramerTick, timersDec, txStepB, txSched, txSt, h1, h2]

theorem tx_tick_idle_proc (p : Bool) (m : Nat) (buf : Nat → Nat) :
    txFramerTick (txSt IDLE true p m buf 0 0 1) = txSt IDLE true p m buf 0 0 4 := by
  simp [txFramerTick, timersDec, txStepB, txSched, txSt]

theorem run_peel (n : Nat) (s t : Ushio) (hs : txRunN 4 s = t) :
    txRunN (4 + n) s = txRunN n t := by
  rw [txRunN_add, hs]

theorem trace_peel (n : Nat) (s t : Ushio) (l : List Bool)
    (hs : txRunN 4 s = t) (hl : uTxTraceN 4 s = l) :
    uTxTraceN (4 + n) s = l ++ uTxTraceN n t := by
  rw [uTxTraceN_add, hs, hl]

theorem tx_chunk_start (x p : Bool) (m : Nat) (buf : Nat → Nat) (w r : Nat) :
    txRunN 4 (txSt START x p m buf w r 4) = txSt DATA false false 1 buf w r 4 ∧
    uTxTraceN 4 (txSt START x p m buf w r 4) = List.replicate 4 x := by
  have d4 := tx_tick_dec START (by decide) x p m buf w r 4 (by omega)
  have d3 := tx_tick_dec START (by decide) x p m buf w r 3 (by omega)
  have d2 := tx_tick_dec START (by decide) x p m buf w r 2 (by omega)
  have dp := tx_tick_start x p m buf w r
  norm_num at d4 d3 d2
  constructor
  · simp only [txRunN]
    rw [d4, d3, d2, dp]
  · simp only [uTxTraceN]
    rw [d4, d3, d2]
    simp [txSt, List.replicate]

theorem tx_chunk_data (k : Nat) (hk : k < 7) (x p : Bool) (buf : Nat → Nat) (w r : Nat) :
    txRunN 4 (txSt DATA x p (2 ^ k) buf w r 4) =
      txSt DATA ((buf r).testBit k) (p ^^ (buf r).testBit k) (2 ^ (k + 1)) buf w r 4 ∧
    uTxTraceN 4 (txSt DATA x p (2 ^ k) buf w r 4) = List.replicate 4 x := by
  have d4 := tx_tick_dec DATA (by decide) x p (2 ^ k) buf w r 4 (by omega)
  have d3 := tx_tick_dec DATA (by decide) x p (2 ^ k) buf w r 3 (by omega)
  have d2 := tx_tick_dec DATA (by decide) x p (2 ^ k) buf w r 2 (by omega)
  have dp := tx_tick_data k hk x p buf w r
  norm_num at d4 d3 d2
  constructor
  · simp only [txRunN]
    rw [d4, d3, d2, dp]
  · simp only [uTxTraceN]
    rw [d4, d3, d2]
    simp [txSt, List.replicate]

theorem tx_chunk_data7 (x p : Bool) (buf : Nat → Nat) (w r : Nat) :
    txRunN 4 (txSt DATA x p 128 buf w r 4) =
      txSt PARITY ((buf r).testBit 7) (p ^^ (buf r).testBit 7) 0 buf w ((r + 1) % 16) 4 ∧
    uTxTraceN 4 (txSt DATA x p 128 buf w r 4) = List.replicate 4 x := by
  have d4 := tx_tick_dec DATA (by decide) x p 128 buf w r 4 (by omega)
  have d3 := tx_tick_dec DATA (by decide) x p 128 buf w r 3 (by omega)
  have d2 := tx_tick_dec DATA (by decide) x p 128 buf w r 2 (by omega)
  have dp := tx_tick_data7 x p buf w r
  norm_num at d4 d3 d2
  constructor
  · simp only [txRunN]
    rw [d4, d3, d2, dp]
  · simp only [uTxTraceN]
    rw [d4, d3, d2]
    simp [txSt, List.replicate]

theorem tx_chunk_parity (x p : Bool) (buf : Nat → Nat) (w r : Nat) :
    txRunN 4 (txSt PARITY x p 0 buf w r 4) = txSt STOP p p 0 buf w r 4 ∧
    uTxTraceN 4 (txSt PARITY x p 0 buf w r 4) = List.replicate 4 x := by
  have d4 := tx_tick_dec PARITY (by decide) x p 0 buf w r 4 (by omega)
  have d3 := tx_tick_dec PARITY (by decide) x p 0 buf w r 3 (by omega)
  have d2 := tx_tick_dec PARITY (by decide) x p 0 buf w r 2 (by omega)
  have dp := tx_tick_parity x p buf w r
  norm_num at d4 d3 d2
  constructor
  · simp only [txRunN]
    rw [d4, d3, d2, dp]
  · simp only [uTxTraceN]
    rw [d4, d3, d2]
    simp [txSt, List.replicate]

theorem tx_chunk_stop (x p : Bool) (buf : Nat → Nat) (w r : Nat) :
    txRunN 4 (txSt STOP x p 0 buf w r 4) =
      (if r < w then txSt START true p 0 buf w r 4
       else txSt IDLE true p 0 buf 0 0 4) ∧
    uTxTraceN 4 (txSt STOP x p 0 buf w r 4) = List.replicate 4 x := by
  have d4 := tx_tick_dec STOP (by decide) x p 0 buf w r 4 (by omega)
  have d3 := tx_tick_dec STOP (by decide) x p 0 buf w r 3 (by omega)
  have d2 := tx_tick_dec STOP (by decide) x p 0 buf w r 2 (by omega)
  have dp := tx_tick_stop x p buf w r
  norm_num at d4 d3 d2
  constructor
  · simp only [txRunN]
    rw [d4, d3, d2, dp]
  · simp only [uTxTraceN]
    rw [d4, d3, d2]
    simp [txSt, List.replicate]

theorem tx_chunk_idle (p : Bool) (m : Nat) (buf : Nat → Nat) :
    txRunN 4 (txSt IDLE true p m buf 0 0 4) = txSt IDLE true p m buf 0 0 4 ∧
    uTxTraceN 4 (txSt IDLE true p m buf 0 0 4) = List.replicate 4 true := by
  have d4 := tx_tick_dec_idle p m buf 4 (by omega)
  have d3 := tx_tick_dec_idle p m buf 3 (by omega)
  have d2 := tx_tick_dec_idle p m buf 2 (by omega)
  have dp := tx_tick_idle_proc p m buf
  norm_num at d4 d3 d2
  constructor
  · simp only [txRunN]
    rw [d4, d3, d2, dp]
  · simp only [uTxTraceN]
    rw [d4, d3, d2]
    simp [txSt, List.replicate]

theorem parityFold_eq (v : Nat) : parityFold v =
    (((((((v.testBit 0 ^^ v.testBit 1) ^^ v.testBit 2) ^^ v.testBit 3) ^^ v.testBit 4)
      ^^ v.testBit 5) ^^ v.testBit 6) ^^ v.testBit 7) := by
  simp [parityFold, List.range_succ]

theorem tx_block (p : Bool) (m : Nat) (buf : Nat → Nat) (w r : Nat) (hr : r < 15) :
    txRunN 44 (txSt START true p m buf w r 4) =
      (if r + 1 < w then txSt START true (parityFold (buf r)) 0 buf w (r + 1) 4
       else txSt IDLE true (parityFold (buf r)) 0 buf 0 0 4) ∧
    uTxTraceN 44 (txSt START true p m buf w r 4) = blockOut (buf r) := by
  have cS := tx_chunk_start true p m buf w r
  have c0 := tx_chunk_data 0 (by omega) false false buf w r
  norm_num only at c0
  rw [Bool.false_xor] at c0
  have c1 := tx_chunk_data 1 (by omega) ((buf r).testBit 0) ((buf r).testBit 0) buf w r
  norm_num only at c1
  have c2 := tx_chunk_data 2 (by omega) ((buf r).testBit 1)
    ((buf r).testBit 0 ^^ (buf r).testBit 1) buf w r
  norm_num only at c2
  have c3 := tx_chunk_data 3 (by omega) ((buf r).testBit 2)
    (((buf r).testBit 0 ^^ (buf r).testBit 1) ^^ (buf r).testBit 2) buf w r
  norm_num only at c3
  have c4 := tx_chunk_data 4 (by omega) ((buf r).testBit 3)
    ((((buf r).testBit 0 ^^ (buf r).testBit 1) ^^ (buf r).testBit 2)
      ^^ (buf r).testBit 3) buf w r
  norm_num only at c4
  have c5 := tx_chunk_data 5 (by omega) ((buf r).testBit 4)
    (((((buf r).testBit 0 ^^ (buf r).testBit 1) ^^ (buf r).testBit 2)
      ^^ (buf r).testBit 3) ^^ (buf r).testBit 4) buf w r
  norm_num only at c5
  have c6 := tx_chunk_data 6 (by omega) ((buf r).testBit 5)
    ((((((buf r).testBit 0 ^^ (buf r).testBit 1) ^^ (buf r).testBit 2)
      ^^ (buf r).testBit 3) ^^ (buf r).testBit 4) ^^ (buf r).testBit 5) buf w r
  norm_num only at c6
  have c7 := tx_chunk_data7 ((buf r).testBit 6)
    (((((((buf r).testBit 0 ^^ (buf r).testBit 1) ^^ (buf r).testBit 2)
      ^^ (buf r).testBit 3) ^^ (buf r).testBit 4) ^^ (buf r).testBit 5)
      ^^ (buf r).testBit 6) buf w r
  have hr16 : (r + 1) % 16 = r + 1 := Nat.mod_eq_of_lt (by omega)
  rw [hr16] at c7
  have c8 := tx_chunk_parity ((buf r).testBit 7)
    ((((((((buf r).testBit 0 ^^ (buf r).testBit 1) ^^ (buf r).testBit 2)
      ^^ (buf r).testBit 3) ^^ (buf r).testBit 4) ^^ (buf r).testBit 5)
      ^^ (buf r).testBit 6) ^^ (buf r).testBit 7) buf w (r + 1)
  have c9 := tx_chunk_stop
    ((((((((buf r).testBit 0 ^^ (buf r).testBit 1) ^^ (buf r).testBit 2)
      ^^ (buf r).testBit 3) ^^ (buf r).testBit 4) ^^ (buf r).testBit 5)
      ^^ (buf r).testBit 6) ^^ (buf r).testBit 7)
    ((((((((buf r).testBit 0 ^^ (buf r).testBit 1) ^^ (buf r).testBit 2)
      ^^ (buf r).testBit 3) ^^ (buf r).testBit 4) ^^ (buf r).testBit 5)
      ^^ (buf r).testBit 6) ^^ (buf r).testBit 7) buf w (r + 1)
  constructor
  · rw [show (44 : Nat) = 4 + 40 from rfl, run_peel 40 _ _ cS.1]
    rw [show (40 : Nat) = 4 + 36 from rfl, run_peel 36 _ _ c0.1]
    rw [show (36 : Nat) = 4 + 32 from rfl, run_peel 32 _ _ c1.1]
    rw [show (32 : Nat) = 4 + 28 from rfl, run_peel 28 _ _ c2.1]
    rw [show (28 : Nat) = 4 + 24 from rfl, run_peel 24 _ _ c3.1]
    rw [show (24 : Nat) = 4 + 20 from rfl, run_peel 20 _ _ c4.1]
    rw [show (20 : Nat) = 4 + 16 from rfl, run_peel 16 _ _ c5.1]
    rw [show (16 : Nat) = 4 + 12 from rfl, run_peel 12 _ _ c6.1]
    rw [show (12 : Nat) = 4 + 8 from rfl, run_peel 8 _ _ c7.1]
    rw [show (8 : Nat) = 4 + 4 from rfl, run_peel 4 _ _ c8.1]
    rw [show (4 : Nat) = 4 + 0 from rfl, run_peel 0 _ _ c9.1]
    simp [txRunN, parityFold_eq]
  · rw [show (44 : Nat) = 4 + 40 from rfl, trace_peel 40 _ _ _ cS.1 cS.2]
    rw [show (40 : Nat) = 4 + 36 from rfl, trace_peel 36 _ _ _ c0.1 c0.2]
    rw [show (36 : Nat) = 4 + 32 from rfl, trace_peel 32 _ _ _ c1.1 c1.2]
    rw [show (32 : Nat) = 4 + 28 from rfl, trace_peel 28 _ _ _ c2.1 c2.2]
    rw [show (28 : Nat) = 4 + 24 from rfl, trace_peel 24 _ _ _ c3.1 c3.2]
    rw [show (24 : Nat) = 4 + 20 from rfl, trace_peel 20 _ _ _ c4.1 c4.2]
    rw [show (20 : Nat) = 4 + 16 from rfl, trace_peel 16 _ _ _ c5.1 c5.2]
    rw [show (16 : Nat) = 4 + 12 from rfl, trace_peel 12 _ _ _ c6.1 c6.2]
    rw [show (12 : Nat) = 4 + 8 from rfl, trace_peel 8 _ _ _ c7.1 c7.2]
    rw [show (8 : Nat) = 4 + 4 from rfl, trace_peel 4 _ _ _ c8.1 c8.2]
    rw [show (4 : Nat) = 4 + 0 from rfl, trace_peel 0 _ _ _ c9.1 c9.2]
    simp [uTxTraceN, blockOut, spread4, List.range_succ, List.append_assoc, parityFold_eq]

theorem tx_all (buf : Nat → Nat) : ∀ n r, ∀ p : Bool, ∀ m : Nat, 0 < n → r + n ≤ 15 →
    (∃ q : Bool, txRunN (44 * n + 4) (txSt START true p m buf (r + n) r 4) =
      txSt IDLE true q 0 buf 0 0 4) ∧
    uTxTraceN (44 * n + 4) (txSt START true p m buf (r + n) r 4) =
      ((List.range n).map (fun i => blockOut (buf (r + i)))).flatten ++
        List.replicate 4 true := by
  intro n
  induction n with
  | zero => intro r p m h1 _; omega
  | succ n ih =>
    intro r p m _ h2
    have hb := tx_block p m buf (r + (n + 1)) r (by omega)
    by_cases hn : n = 0
    · subst hn
      have hcond : ¬ (r + 1 < r + (0 + 1)) := by omega
      rw [if_neg hcond] at hb
      have hidle := tx_chunk_idle (parityFold (buf r)) 0 buf
      constructor
      · refine ⟨parityFold (buf r), ?_⟩
        rw [show 44 * (0 + 1) + 4 = 44 + 4 from by norm_num, txRunN_add, hb.1, hidle.1]
      · rw [show 44 * (0 + 1) + 4 = 44 + 4 from by norm_num, uTxTraceN_add, hb.1, hb.2,
          hidle.2]
        simp [List.range_succ]
    · have hnpos : 0 < n := by omega
      have hcond : r + 1 < r + (n + 1) := by omega
      rw [if_pos hcond] at hb
      have IH := ih (r + 1) (parityFold (buf r)) 0 hnpos (by omega)
      rw [show r + 1 + n = r + (n + 1) from by omega] at IH
      constructor
      · obtain ⟨q, hq⟩ := IH.1
        refine ⟨q, ?_⟩
        rw [show 44 * (n + 1) + 4 = 44 + (44 * n + 4) from by ring, txRunN_add, hb.1, hq]
      · rw [show 44 * (n + 1) + 4 = 44 + (44 * n + 4) from by ring, uTxTraceN_add, hb.1,
          hb.2, IH.2]
        rw [List.range_succ_eq_map]
        simp only [List.map_cons, List.map_map, List.flatten_cons, Nat.add_zero]
        rw [List.append_assoc]
        congr 2
        congr 1
        apply List.map_congr_left
        intro a _
        simp only [Function.comp_apply]
        congr 2
        omega

/-! ## Receive framer: per-tick, per-bit-phase and per-byte behaviour -/

theorem bufSet_same (f : Nat → Nat) (i v : Nat) : bufSet f i v i = v := by
  simp [bufSet]

theorem bufSet_bufSet (f : Nat → Nat) (i v u : Nat) :
    bufSet (bufSet f i v) i u = bufSet f i u := by
  funext j
  simp only [bufSet]
  by_cases h : j = i <;> simp [h]

theorem rx_tick_dec (st : UartState) (l c input : Bool) (t : Nat) (ht : 2 ≤ t)
    (par : Bool) (rb : Nat) (buf : Nat → Nat) (w τ : Nat) (lg : List Nat) :
    rxFramerTick input (rxSt st l c t par rb buf w τ lg) =
      rxSt st c input (t - 1) par rb buf w (τ - 1) lg := by
  have h1 : t ≠ 0 := by omega
  have h2 : ¬ (t - 1 = 0) := by omega
  by_cases hτ : τ = 0 <;>
    simp [rxFramerTick, sampleRx, timersDec, rxHandle, rxSt, h1, h2, hτ]

theorem rx_tick_idle_high (l c : Bool) (par : Bool) (rb : Nat) (buf : Nat → Nat)
    (w τ : Nat) (lg : List Nat) :
    rxFramerTick true (rxSt IDLE l c 0 par rb buf w τ lg) =
      rxSt IDLE c true 0 par rb buf w (τ - 1) lg := by
  by_cases hτ : τ = 0 <;>
    simp [rxFramerTick, sampleRx, timersDec, rxHandle, rxSt, hτ]

theorem rx_tick_edge (l : Bool) (par : Bool) (rb : Nat) (buf : Nat → Nat)
    (w τ : Nat) (lg : List Nat) :
    rxFramerTick false (rxSt IDLE l true 0 par rb buf w τ lg) =
      rxSt START true false 1 par rb buf w (τ - 1) lg := by
  by_cases hτ : τ = 0 <;>
    simp [rxFramerTick, sampleRx, timersDec, rxHandle, rxSt, hτ]

theorem rx_tick_confirm (l c : Bool) (par : Bool) (rb : Nat) (buf : Nat → Nat)
    (w τ : Nat) (lg : List Nat) :
    rxFramerTick false (rxSt START l c 1 par rb buf w τ lg) =
      rxSt DATA c false 4 false 1 (bufSet buf w 0) w
        (if τ - 1 = 0 then UART_RX_TIMEOUT else τ - 1) lg := by
  by_cases hτ : τ = 0
  · simp [rxFramerTick, sampleRx, timersDec, rxHandle, rxSt, hτ]
  · by_cases hτ1 : τ - 1 = 0 <;>
      simp [rxFramerTick, sampleRx, timersDec, rxHandle, rxSt, hτ, hτ1]

theorem rx_tick_data (k : Nat) (hk : k < 7) (l c d : Bool) (p : Bool)
    (buf : Nat → Nat) (acc w τ : Nat) (lg : List Nat) :
    rxFramerTick d (rxSt DATA l c 1 p (2 ^ k) (bufSet buf w acc) w τ lg) =
      rxSt DATA c d 4 (p ^^ d) (2 ^ (k + 1))
        (bufSet buf w (acc ||| (if d then 2 ^ k else 0))) w (τ - 1) lg := by
  have hmod : 2 ^ k * 2 % 256 = 2 ^ (k + 1) := by
    rw [← pow_succ]
    exact Nat.mod_eq_of_lt (lt_of_le_of_lt
      (Nat.pow_le_pow_right (by norm_num) (by omega)) (by norm_num : (2:Nat)^7 < 256))
  have hne : ¬ (2 ^ (k + 1) = 0) := by positivity
  by_cases hτ : τ = 0 <;> cases d <;>
    simp [rxFramerTick, sampleRx, timersDec, rxHandle, rxSt, hτ, hmod, hne,
      bufSet_same, bufSet_bufSet, Bool.xor_true, Bool.xor_false]

theorem rx_tick_data7 (l c d : Bool) (p : Bool) (buf : Nat → Nat)
    (acc w τ : Nat) (lg : List Nat) :
    rxFramerTick d (rxSt DATA l c 1 p 128 (bufSet buf w acc) w τ lg) =
      rxSt PARITY c d 4 (p ^^ d) 0
        (bufSet buf w (acc ||| (if d then 128 else 0))) ((w + 1) % 16) (τ - 1)
        (lg ++ [acc ||| (if d then 128 else 0)]) := by
  by_cases hτ : τ = 0 <;> cases d <;>
    simp [rxFramerTick, sampleRx, timersDec, rxHandle, rxSt, UARTRXMASK, hτ,
      bufSet_same, bufSet_bufSet, Bool.xor_true, Bool.xor_false, land15_eq]

theorem rx_tick_parity (l c i : Bool) (p : Bool) (rb : Nat) (buf : Nat → Nat)
    (w τ : Nat) (lg : List Nat) :
    rxFramerTick i (rxSt PARITY l c 1 p rb buf w τ lg) =
      rxSt STOP c i 4 p rb buf w (τ - 1) lg := by
  by_cases hτ : τ = 0 <;>
    simp [rxFramerTick, sampleRx, timersDec, rxHandle, rxSt, hτ]

theorem rx_tick_stop (l c i : Bool) (p : Bool) (rb : Nat) (buf : Nat → Nat)
    (w τ : Nat) (lg : List Nat) :
    rxFramerTick i (rxSt STOP l c 1 p rb buf w τ lg) =
      rxSt IDLE c i 0 p rb buf w (τ - 1) lg := by
  by_cases hτ : τ = 0 <;>
    simp [rxFramerTick, sampleRx, timersDec, rxHandle, rxSt, hτ]

theorem rx_chunk_data (k : Nat) (hk : k < 7) (a b c d : Bool) (l e : Bool) (p : Bool)
    (buf : Nat → Nat) (acc w τ : Nat) (lg : List Nat) :
    rxFramerRun [a, b, c, d] (rxSt DATA l e 4 p (2 ^ k) (bufSet buf w acc) w τ lg) =
      rxSt DATA c d 4 (p ^^ d) (2 ^ (k + 1))
        (bufSet buf w (acc ||| (if d then 2 ^ k else 0))) w (τ - 4) lg := by
  have d1 := rx_tick_dec DATA l e a 4 (by omega) p (2 ^ k) (bufSet buf w acc) w τ lg
  have d2 := rx_tick_dec DATA e a b 3 (by omega) p (2 ^ k) (bufSet buf w acc) w (τ - 1) lg
  have d3 := rx_tick_dec DATA a b c 2 (by omega) p (2 ^ k) (bufSet buf w acc) w (τ - 1 - 1) lg
  have dp := rx_tick_data k hk b c d p buf acc w (τ - 1 - 1 - 1) lg
  norm_num only at d1 d2 d3
  simp only [rxFramerRun, List.foldl]
  rw [d1, d2, d3, dp]
  norm_num [Nat.sub_sub]

theorem rx_chunk_data7 (a b c d : Bool) (l e : Bool) (p : Bool)
    (buf : Nat → Nat) (acc w τ : Nat) (lg : List Nat) :
    rxFramerRun [a, b, c, d] (rxSt DATA l e 4 p 128 (bufSet buf w acc) w τ lg) =
      rxSt PARITY c d 4 (p ^^ d) 0
        (bufSet buf w (acc ||| (if d then 128 else 0))) ((w + 1) % 16) (τ - 4)
        (lg ++ [acc ||| (if d then 128 else 0)]) := by
  have d1 := rx_tick_dec DATA l e a 4 (by omega) p 128 (bufSet buf w acc) w τ lg
  have d2 := rx_tick_dec DATA e a b 3 (by omega) p 128 (bufSet buf w acc) w (τ - 1) lg
  have d3 := rx_tick_dec DATA a b c 2 (by omega) p 128 (bufSet buf w acc) w (τ - 1 - 1) lg
  have dp := rx_tick_data7 b c d p buf acc w (τ - 1 - 1 - 1) lg
  norm_num only at d1 d2 d3
  simp only [rxFramerRun, List.foldl]
  rw [d1, d2, d3, dp]
  norm_num [Nat.sub_sub]

theorem rx_chunk_parity (a b c d : Bool) (l e : Bool) (p : Bool) (rb : Nat)
    (buf : Nat → Nat) (w τ : Nat) (lg : List Nat) :
    rxFramerRun [a, b, c, d] (rxSt PARITY l e 4 p rb buf w τ lg) =
      rxSt STOP c d 4 p rb buf w (τ - 4) lg := by
  have d1 := rx_tick_dec PARITY l e a 4 (by omega) p rb buf w τ lg
  have d2 := rx_tick_dec PARITY e a b 3 (by omega) p rb buf w (τ - 1) lg
  have d3 := rx_tick_dec PARITY a b c 2 (by omega) p rb buf w (τ - 1 - 1) lg
  have dp := rx_tick_parity b c d p rb buf w (τ - 1 - 1 - 1) lg
  norm_num only at d1 d2 d3
  simp only [rxFramerRun, List.foldl]
  rw [d1, d2, d3, dp]
  norm_num [Nat.sub_sub]

theorem rx_chunk_stop (a b c d : Bool) (l e : Bool) (p : Bool) (rb : Nat)
    (buf : Nat → Nat) (w τ : Nat) (lg : List Nat) :
    rxFramerRun [a, b, c, d] (rxSt STOP l e 4 p rb buf w τ lg) =
      rxSt IDLE c d 0 p rb buf w (τ - 4) lg := by
  have d1 := rx_tick_dec STOP l e a 4 (by omega) p rb buf w τ lg
  have d2 := rx_tick_dec STOP e a b 3 (by omega) p rb buf w (τ - 1) lg
  have d3 := rx_tick_dec STOP a b c 2 (by omega) p rb buf w (τ - 1 - 1) lg
  have dp := rx_tick_stop b c d p rb buf w (τ - 1 - 1 - 1) lg
  norm_num only at d1 d2 d3
  simp only [rxFramerRun, List.foldl]
  rw [d1, d2, d3, dp]
  norm_num [Nat.sub_sub]

theorem frameSeq_split (v : Nat) : frameSeq v =
    [false, false] ++
    ([false, false, v.testBit 0, v.testBit 0] ++
    ([v.testBit 0, v.testBit 0, v.testBit 1, v.testBit 1] ++
    ([v.testBit 1, v.testBit 1, v.testBit 2, v.testBit 2] ++
    ([v.testBit 2, v.testBit 2, v.testBit 3, v.testBit 3] ++
    ([v.testBit 3, v.testBit 3, v.testBit 4, v.testBit 4] ++
    ([v.testBit 4, v.testBit 4, v.testBit 5, v.testBit 5] ++
    ([v.testBit 5, v.testBit 5, v.testBit 6, v.testBit 6] ++
    ([v.testBit 6, v.testBit 6, v.testBit 7, v.testBit 7] ++
    ([v.testBit 7, v.testBit 7, parityFold v, parityFold v] ++
    ([parityFold v, parityFold v, true, true] ++
     [true, true])))))))))) := by
  simp [frameSeq, spread4, List.range_succ]

set_option maxRecDepth 20000 in
theorem orChain8 (v : Nat) (hv : v < 256) :
    ((((((((if v.testBit 0 then 1 else 0) ||| (if v.testBit 1 then 2 else 0)) |||
      (if v.testBit 2 then 4 else 0)) ||| (if v.testBit 3 then 8 else 0)) |||
      (if v.testBit 4 then 16 else 0)) ||| (if v.testBit 5 then 32 else 0)) |||
      (if v.testBit 6 then 64 else 0)) ||| (if v.testBit 7 then 128 else 0)) = v := by
  have h : ∀ x, x < 256 →
      ((((((((if x.testBit 0 then 1 else 0) ||| (if x.testBit 1 then 2 else 0)) |||
        (if x.testBit 2 then 4 else 0)) ||| (if x.testBit 3 then 8 else 0)) |||
        (if x.testBit 4 then 16 else 0)) ||| (if x.testBit 5 then 32 else 0)) |||
        (if x.testBit 6 then 64 else 0)) ||| (if x.testBit 7 then 128 else 0)) = x := by
    decide
  exact h v hv

theorem rx_block (v : Nat) (hv : v < 256) (l : Bool) (par : Bool) (rb : Nat)
    (buf : Nat → Nat) (w τ : Nat) (lg : List Nat) :
    rxFramerRun (frameSeq v) (rxSt IDLE l true 0 par rb buf w τ lg) =
      rxSt IDLE true true 0 (parityFold v) 0 (bufSet buf w v) ((w + 1) % 16)
        (rxTimeoutNext τ) (lg ++ [v]) := by
  rw [frameSeq_split]
  have e0 : rxFramerRun [false, false] (rxSt IDLE l true 0 par rb buf w τ lg) =
      rxSt DATA false false 4 false 1 (bufSet buf w 0) w
        (if τ - 1 - 1 = 0 then UART_RX_TIMEOUT else τ - 1 - 1) lg := by
    simp only [rxFramerRun, List.foldl]
    rw [rx_tick_edge, rx_tick_confirm]
  have c0 := rx_chunk_data 0 (by omega) false false (v.testBit 0) (v.testBit 0)
    false false false buf 0 w
    (if τ - 1 - 1 = 0 then UART_RX_TIMEOUT else τ - 1 - 1) lg
  norm_num only at c0
  rw [Bool.false_xor, Nat.zero_or] at c0
  have c1 := rx_chunk_data 1 (by omega) (v.testBit 0) (v.testBit 0) (v.testBit 1)
    (v.testBit 1) (v.testBit 0) (v.testBit 0) (v.testBit 0) buf
    (if v.testBit 0 then 1 else 0) w
    ((if τ - 1 - 1 = 0 then UART_RX_TIMEOUT else τ - 1 - 1) - 4) lg
  norm_num only at c1
  have c2 := rx_chunk_data 2 (by omega) (v.testBit 1) (v.testBit 1) (v.testBit 2)
    (v.testBit 2) (v.testBit 1) (v.testBit 1) (v.testBit 0 ^^ v.testBit 1) buf
    ((if v.testBit 0 then 1 else 0) ||| (if v.testBit 1 then 2 else 0)) w
    ((if τ - 1 - 1 = 0 then UART_RX_TIMEOUT else τ - 1 - 1) - 4 - 4) lg
  norm_num only at c2
  have c3 := rx_chunk_data 3 (by omega) (v.testBit 2) (v.testBit 2) (v.testBit 3)
    (v.testBit 3) (v.testBit 2) (v.testBit 2)
    ((v.testBit 0 ^^ v.testBit 1) ^^ v.testBit 2) buf
    (((if v.testBit 0 then 1 else 0) ||| (if v.testBit 1 then 2 else 0)) |||
      (if v.testBit 2 then 4 else 0)) w
    ((if τ - 1 - 1 = 0 then UART_RX_TIMEOUT else τ - 1 - 1) - 4 - 4 - 4) lg
  norm_num only at c3
  have c4 := rx_chunk_data 4 (by omega) (v.testBit 3) (v.testBit 3) (v.testBit 4)
    (v.testBit 4) (v.testBit 3) (v.testBit 3)
    (((v.testBit 0 ^^ v.testBit 1) ^^ v.testBit 2) ^^ v.testBit 3) buf
    ((((if v.testBit 0 then 1 else 0) ||| (if v.testBit 1 then 2 else 0)) |||
      (if v.testBit 2 then 4 else 0)) ||| (if v.testBit 3 then 8 else 0)) w
    ((if τ - 1 - 1 = 0 then UART_RX_TIMEOUT else τ - 1 - 1) - 4 - 4 - 4 - 4) lg
  norm_num only at c4
  have c5 := rx_chunk_data 5 (by omega) (v.testBit 4) (v.testBit 4) (v.testBit 5)
    (v.testBit 5) (v.testBit 4) (v.testBit 4)
    ((((v.testBit 0 ^^ v.testBit 1) ^^ v.testBit 2) ^^ v.testBit 3) ^^ v.testBit 4)
    buf
    (((((if v.testBit 0 then 1 else 0) ||| (if v.testBit 1 then 2 else 0)) |||
      (if v.testBit 2 then 4 else 0)) ||| (if v.testBit 3 then 8 else 0)) |||
      (if v.testBit 4 then 16 else 0)) w
    ((if τ - 1 - 1 = 0 then UART_RX_TIMEOUT else τ - 1 - 1) - 4 - 4 - 4 - 4 - 4) lg
  norm_num only at c5
  have c6 := rx_chunk_data 6 (by omega) (v.testBit 5) (v.testBit 5) (v.testBit 6)
    (v.testBit 6) (v.testBit 5) (v.testBit 5)
    (((((v.testBit 0 ^^ v.testBit 1) ^^ v.testBit 2) ^^ v.testBit 3) ^^ v.testBit 4)
      ^^ v.testBit 5) buf
    ((((((if v.testBit 0 then 1 else 0) ||| (if v.testBit 1 then 2 else 0)) |||
      (if v.testBit 2 then 4 else 0)) ||| (if v.testBit 3 then 8 else 0)) |||
      (if v.testBit 4 then 16 else 0)) ||| (if v.testBit 5 then 32 else 0)) w
    ((if τ - 1 - 1 = 0 then UART_RX_TIMEOUT else τ - 1 - 1) - 4 - 4 - 4 - 4 - 4 - 4) lg
  norm_num only at c6
  have c7 := rx_chunk_data7 (v.testBit 6) (v.testBit 6) (v.testBit 7) (v.testBit 7)
    (v.testBit 6) (v.testBit 6)
    ((((((v.testBit 0 ^^ v.testBit 1) ^^ v.testBit 2) ^^ v.testBit 3) ^^ v.testBit 4)
      ^^ v.testBit 5) ^^ v.testBit 6) buf
    (((((((if v.testBit 0 then 1 else 0) ||| (if v.testBit 1 then 2 else 0)) |||
      (if v.testBit 2 then 4 else 0)) ||| (if v.testBit 3 then 8 else 0)) |||
      (if v.testBit 4 then 16 else 0)) ||| (if v.testBit 5 then 32 else 0)) |||
      (if v.testBit 6 then 64 else 0)) w
    ((if τ - 1 - 1 = 0 then UART_RX_TIMEOUT else τ - 1 - 1) - 4 - 4 - 4 - 4 - 4 - 4 - 4)
    lg
  have c8 := rx_chunk_parity (v.testBit 7) (v.testBit 7) (parityFold v) (parityFold v)
    (v.testBit 7) (v.testBit 7)
    (((((((v.testBit 0 ^^ v.testBit 1) ^^ v.testBit 2) ^^ v.testBit 3) ^^ v.testBit 4)
      ^^ v.testBit 5) ^^ v.testBit 6) ^^ v.testBit 7) 0
    (bufSet buf w
      ((((((((if v.testBit 0 then 1 else 0) ||| (if v.testBit 1 then 2 else 0)) |||
        (if v.testBit 2 then 4 else 0)) ||| (if v.testBit 3 then 8 else 0)) |||
        (if v.testBit 4 then 16 else 0)) ||| (if v.testBit 5 then 32 else 0)) |||
        (if v.testBit 6 then 64 else 0)) ||| (if v.testBit 7 then 128 else 0)))
    ((w + 1) % 16)
    ((if τ - 1 - 1 = 0 then UART_RX_TIMEOUT else τ - 1 - 1)
      - 4 - 4 - 4 - 4 - 4 - 4 - 4 - 4)
    (lg ++ [(((((((if v.testBit 0 then 1 else 0) ||| (if v.testBit 1 then 2 else 0)) |||
        (if v.testBit 2 then 4 else 0)) ||| (if v.testBit 3 then 8 else 0)) |||
        (if v.testBit 4 then 16 else 0)) ||| (if v.testBit 5 then 32 else 0)) |||
        (if v.testBit 6 then 64 else 0)) ||| (if v.testBit 7 then 128 else 0)])
  have c9 := rx_chunk_stop (parityFold v) (parityFold v) true true
    (parityFold v) (parityFold v)
    (((((((v.testBit 0 ^^ v.testBit 1) ^^ v.testBit 2) ^^ v.testBit 3) ^^ v.testBit 4)
      ^^ v.testBit 5) ^^ v.testBit 6) ^^ v.testBit 7) 0
    (bufSet buf w
      ((((((((if v.testBit 0 then 1 else 0) ||| (if v.testBit 1 then 2 else 0)) |||
        (if v.testBit 2 then 4 else 0)) ||| (if v.testBit 3 then 8 else 0)) |||
        (if v.testBit 4 then 16 else 0)) ||| (if v.testBit 5 then 32 else 0)) |||
        (if v.testBit 6 then 64 else 0)) ||| (if v.testBit 7 then 128 else 0)))
    ((w + 1) % 16)
    ((if τ - 1 - 1 = 0 then UART_RX_TIMEOUT else τ - 1 - 1)
      - 4 - 4 - 4 - 4 - 4 - 4 - 4 - 4 - 4)
    (lg ++ [(((((((if v.testBit 0 then 1 else 0) ||| (if v.testBit 1 then 2 else 0)) |||
        (if v.testBit 2 then 4 else 0)) ||| (if v.testBit 3 then 8 else 0)) |||
        (if v.testBit 4 then 16 else 0)) ||| (if v.testBit 5 then 32 else 0)) |||
        (if v.testBit 6 then 64 else 0)) ||| (if v.testBit 7 then 128 else 0)])
  rw [rxFramerRun_append, e0]
  rw [rxFramerRun_append, c0]
  rw [rxFramerRun_append, c1]
  rw [rxFramerRun_append, c2]
  rw [rxFramerRun_append, c3]
  rw [rxFramerRun_append, c4]
  rw [rxFramerRun_append, c5]
  rw [rxFramerRun_append, c6]
  rw [rxFramerRun_append, c7]
  rw [rxFramerRun_append, c8]
  rw [rxFramerRun_append, c9]
  simp only [rxFramerRun, List.foldl]
  rw [rx_tick_idle_high, rx_tick_idle_high]
  rw [orChain8 v hv]
  rw [← parityFold_eq v]
  rw [rxTimeoutNext, UART_RX_TIMEOUT]
  norm_num [Nat.sub_sub]

theorem rx_all (vs : List Nat) : ∀ (l : Bool) (par : Bool) (rb : Nat)
    (buf : Nat → Nat) (w τ : Nat) (lg : List Nat), (∀ v ∈ vs, v < 256) →
    ∃ (l2 par2 : Bool) (rb2 : Nat) (buf2 : Nat → Nat) (w2 τ2 : Nat),
      rxFramerRun (vs.map frameSeq).flatten (rxSt IDLE l true 0 par rb buf w τ lg) =
        rxSt IDLE l2 true 0 par2 rb2 buf2 w2 τ2 (lg ++ vs) := by
  induction vs with
  | nil =>
    intro l par rb buf w τ lg _
    exact ⟨l, par, rb, buf, w, τ, by simp [rxFramerRun]⟩
  | cons v rest ih =>
    intro l par rb buf w τ lg hv
    have hv1 : v < 256 := hv v (by simp)
    have hrest : ∀ x ∈ rest, x < 256 := fun x hx => hv x (by simp [hx])
    simp only [List.map_cons, List.flatten_cons]
    rw [rxFramerRun_append, rx_block v hv1 l par rb buf w τ lg]
    obtain ⟨l2, par2, rb2, buf2, w2, τ2, hrun⟩ := ih true (parityFold v) 0
      (bufSet buf w v) ((w + 1) % 16) (rxTimeoutNext τ) (lg ++ [v]) hrest
    exact ⟨l2, par2, rb2, buf2, w2, τ2, by rw [hrun]; simp⟩

theorem ushioInit_as_rxSt :
    ushioInit = rxSt IDLE false false 0 false 1 (fun _ => 0) 0 0 [] := rfl

theorem rx_warmup :
    rxFramerRun (List.replicate 5 true) ushioInit =
      rxSt IDLE true true 0 false 1 (fun _ => 0) 0 0 [] := by
  rw [ushioInit_as_rxSt]
  show rxFramerRun [true, true, true, true, true] _ = _
  simp only [rxFramerRun, List.foldl]
  rw [rx_tick_idle_high, rx_tick_idle_high, rx_tick_idle_high, rx_tick_idle_high,
    rx_tick_idle_high]

theorem txInit_first (b : List Nat) (hb : 0 < b.length) :
    txFramerTick (txInit b) =
      txSt START true false 1 (fun i => b.getD i 0) b.length 0 4 := by
  simp [txInit, ushioInit, txFramerTick, timersDec, txStepB, txSched, txSt, hb]

theorem txInit_empty_first :
    txFramerTick (txInit []) =
      txSt IDLE true false 1 (fun i => ([] : List Nat).getD i 0) 0 0 4 := by
  simp [txInit, ushioInit, txFramerTick, timersDec, txStepB, txSched, txSt]

theorem range_map_getD (b : List Nat) :
    (List.range b.length).map (fun i => blockOut (b.getD i 0)) = b.map blockOut := by
  induction b with
  | nil => simp
  | cons a rest ih =>
    rw [List.length_cons, List.range_succ_eq_map, List.map_cons]
    congr 1
    rw [List.map_map, ← ih]
    apply List.map_congr_left
    intro i _
    simp [Function.comp]

theorem tx_emit (b : List Nat) (hb : 0 < b.length) (hlen : b.length ≤ 15) :
    uTxTraceN (5 + 44 * b.length) (txInit b) =
      [true] ++ ((b.map blockOut).flatten ++ List.replicate 4 true) := by
  rw [show 5 + 44 * b.length = 1 + (44 * b.length + 4) from by ring]
  rw [uTxTraceN_add]
  have h1 : uTxTraceN 1 (txInit b) = [true] := by
    simp [uTxTraceN, txInit, ushioInit]
  have h2 : txRunN 1 (txInit b) = txSt START true false 1 (fun i => b.getD i 0)
      b.length 0 4 := by
    simp only [txRunN]
    exact txInit_first b hb
  rw [h1, h2]
  have ha := (tx_all (fun i => b.getD i 0) b.length 0 false 1 hb (by omega)).2
  rw [show (0 : Nat) + b.length = b.length from by omega] at ha
  rw [ha]
  have h3 : (List.range b.length).map (fun i => blockOut ((fun j => b.getD j 0) (0 + i)))
      = (List.range b.length).map (fun i => blockOut (b.getD i 0)) :=
    List.map_congr_left (fun i _ => by norm_num)
  rw [h3, range_map_getD b]

theorem flatten_rotate (l : List Nat) (h : List Bool) (t : Nat → List Bool) :
    (l.map (fun v => h ++ t v)).flatten ++ h = h ++ (l.map (fun v => t v ++ h)).flatten := by
  induction l with
  | nil => simp
  | cons a rest ih =>
    simp only [List.map_cons, List.flatten_cons, List.append_assoc]
    rw [ih]

theorem blockOut_decomp (v : Nat) : blockOut v =
    List.replicate 4 true ++
      (List.replicate 4 false ++ (spread4 v ++ List.replicate 4 (parityFold v))) := by
  simp [blockOut, List.append_assoc]

theorem frameSeq_decomp (v : Nat) : frameSeq v =
    (List.replicate 4 false ++ (spread4 v ++ List.replicate 4 (parityFold v))) ++
      List.replicate 4 true := by
  simp [frameSeq, List.append_assoc]

/-- C5: encode-then-decode round trip.  For every byte sequence `b` that fits
the transmit queue, transmitting `b` with the transmit framer and feeding the
produced line levels tick-by-tick into the receive framer makes the receive
framer commit exactly the bytes of `b`, in order. -/
theorem c5_roundtrip (b : List Nat) (hv : ∀ v ∈ b, v < 256) (hlen : b.length ≤ 15) :
    (rxFramerRun (uTxTraceN (5 + 44 * b.length) (txInit b)) ushioInit).rxLog = b := by
  rcases b with _ | ⟨a, rest⟩
  · have htr : uTxTraceN (5 + 44 * ([] : List Nat).length) (txInit []) =
        List.replicate 5 true := by
      rw [show 5 + 44 * ([] : List Nat).length = 1 + 4 from by simp]
      rw [uTxTraceN_add]
      have h1 : uTxTraceN 1 (txInit []) = [true] := by
        simp [uTxTraceN, txInit, ushioInit]
      have h2 : txRunN 1 (txInit []) =
          txSt IDLE true false 1 (fun i => ([] : List Nat).getD i 0) 0 0 4 := by
        simp only [txRunN]
        exact txInit_empty_first
      rw [h1, h2, (tx_chunk_idle false 1 (fun i => ([] : List Nat).getD i 0)).2]
      rfl
    rw [htr, rx_warmup]
    rfl
  · set bb := a :: rest with hbb
    have hb : 0 < bb.length := by simp [hbb]
    rw [tx_emit bb hb hlen]
    have hmap : bb.map blockOut = bb.map
        (fun v => List.replicate 4 true ++
          (List.replicate 4 false ++ (spread4 v ++ List.replicate 4 (parityFold v)))) :=
      List.map_congr_left (fun v _ => blockOut_decomp v)
    rw [hmap, flatten_rotate]
    have hmap2 : bb.map
        (fun v => (List.replicate 4 false ++
          (spread4 v ++ List.replicate 4 (parityFold v))) ++ List.replicate 4 true) =
        bb.map frameSeq :=
      List.map_congr_left (fun v _ => (frameSeq_decomp v).symm)
    rw [hmap2]
    rw [show ([true] ++ (List.replicate 4 true ++ (bb.map frameSeq).flatten)) =
      List.replicate 5 true ++ (bb.map frameSeq).flatten from by simp]
    rw [rxFramerRun_append, rx_warmup]
    obtain ⟨l2, par2, rb2, buf2, w2, τ2, hrun⟩ :=
      rx_all bb true false 1 (fun _ => 0) 0 0 [] hv
    rw [hrun]
    simp [rxSt]

/-- Witness for C5: the two-byte sequence `51 0D` transmitted and decoded. -/
theorem c5_witness :
    (rxFramerRun (uTxTraceN (5 + 44 * [0x51, 0x0D].length) (txInit [0x51, 0x0D]))
      ushioInit).rxLog = [0x51, 0x0D] :=
  c5_roundtrip [0x51, 0x0D] (by decide) (by decide)

theorem blockOut_form (v : Nat) : blockOut v =
    (List.replicate 4 true ++ (List.replicate 4 false ++ spread4 v)) ++
      List.replicate 4 (parityFold v) := by
  simp [blockOut, List.append_assoc]

set_option maxRecDepth 20000 in
/-- C6: for every byte serialized by the transmit framer, the level driven
during the 4-tick PARITY phase (positions 40–43 of the 44-tick byte block) is
the XOR-reduction of the 8 data bits — true exactly when the byte has an odd
number of set bits — so the total number of transmitted 1-bits in data plus
parity is even. -/
theorem c6_parity_bit (buf : Nat → Nat) (w r : Nat) (hr : r < 15)
    (hv : buf r < 256) (p : Bool) (m : Nat) :
    List.drop 40 (uTxTraceN 44 (txSt START true p m buf w r 4)) =
      List.replicate 4 (parityFold (buf r)) ∧
    (parityFold (buf r) = true ↔
      Odd ((List.range 8).countP (fun k => (buf r).testBit k))) ∧
    Even ((List.range 8).countP (fun k => (buf r).testBit k) +
      (if parityFold (buf r) then 1 else 0)) := by
  refine ⟨?_, ?_, ?_⟩
  · rw [(tx_block p m buf w r hr).2, blockOut_form (buf r)]
    have h40 : (List.replicate 4 true ++ (List.replicate 4 false ++
        spread4 (buf r))).length = 40 := by
      simp [spread4, List.range_succ, Function.comp]
    rw [← h40, List.drop_left]
  · have h : ∀ x, x < 256 → (parityFold x = true ↔
        Odd ((List.range 8).countP (fun k => x.testBit k))) := by decide
    exact h _ hv
  · have h : ∀ x, x < 256 → Even ((List.range 8).countP (fun k => x.testBit k) +
        (if parityFold x then 1 else 0)) := by decide
    exact h _ hv

/-- Witness for C6: the byte `51` (three set bits) gets parity bit 1. -/
theorem c6_witness :
    List.drop 40 (uTxTraceN 44 (txSt START true false 1 (fun _ => 0x51) 1 0 4)) =
      List.replicate 4 (parityFold 0x51) ∧ parityFold 0x51 = true :=
  ⟨(c6_parity_bit (fun _ => 0x51) 1 0 (by decide) (by decide) false 1).1, by decide⟩

/-! ## Power-on behaviour of the full machine with the line idle -/

theorem uTraceN_split (m n : Nat) (s : Ushio) :
    uTraceN (m + n) s = uTraceN m s ++ uTraceN n (uRunN m s) := by
  induction m generalizing s with
  | zero => simp [uTraceN, uRunN]
  | succ m ih =>
    have h : m + 1 + n = (m + n) + 1 := by omega
    rw [h]
    simp only [uTraceN, uRunN]
    rw [ih (uTick true s)]
    simp [uTraceN]

theorem c2_tick0 : uTick true ushioInit =
    { ushioInit with rxBit := true, txTick := 4 } := by
  simp [uTick, sampleRx, timersDec, rxHandle, txStepB, txSched, matchStep, ushioInit]

theorem c2_tick1 : uTick true ({ ushioInit with rxBit := true, txTick := 4 }) =
    { ushioInit with rxLastBit := true, rxBit := true, txTick := 3 } := by
  simp [uTick, sampleRx, timersDec, rxHandle, txStepB, txSched, matchStep, ushioInit]

theorem c2_dec (t : Nat) (ht : 2 ≤ t) :
    uTick true ({ ushioInit with rxLastBit := true, rxBit := true, txTick := t }) =
      { ushioInit with rxLastBit := true, rxBit := true, txTick := t - 1 } := by
  have h1 : t ≠ 0 := by omega
  have h2 : ¬ (t - 1 = 0) := by omega
  simp [uTick, sampleRx, timersDec, rxHandle, txStepB, txSched, matchStep, ushioInit,
    h1, h2]

theorem c2_proc : uTick true
    ({ ushioInit with rxLastBit := true, rxBit := true, txTick := 1 }) =
    { ushioInit with rxLastBit := true, rxBit := true, txTick := 4 } := by
  simp [uTick, sampleRx, timersDec, rxHandle, txStepB, txSched, matchStep, ushioInit]

theorem c2_cycle : uRunN 4
    ({ ushioInit with rxLastBit := true, rxBit := true, txTick := 3 }) =
    { ushioInit with rxLastBit := true, rxBit := true, txTick := 3 } := by
  have d3 := c2_dec 3 (by omega)
  have d2 := c2_dec 2 (by omega)
  have d4 := c2_dec 4 (by omega)
  norm_num at d3 d2 d4
  simp only [uRunN]
  rw [d3, d2, c2_proc, d4]

theorem c2_a3_trace4 : uTraceN 4
    ({ ushioInit with rxLastBit := true, rxBit := true, txTick := 3 }) =
    List.replicate 4 true := by
  have d3 := c2_dec 3 (by omega)
  have d2 := c2_dec 2 (by omega)
  norm_num at d3 d2
  simp only [uTraceN]
  rw [d3, d2, c2_proc]
  simp [ushioInit, List.replicate]

theorem c2_a3_trace : ∀ n, uTraceN n
    ({ ushioInit with rxLastBit := true, rxBit := true, txTick := 3 }) =
    List.replicate n true := by
  intro n
  induction n using Nat.strong_induction_on with
  | _ n ih =>
    by_cases hn : n < 4
    · have d3 := c2_dec 3 (by omega)
      have d2 := c2_dec 2 (by omega)
      norm_num at d3 d2
      interval_cases n
      · rfl
      · simp [uTraceN, ushioInit]
      · simp only [uTraceN]
        rw [d3]
        simp [ushioInit, List.replicate]
      · simp only [uTraceN]
        rw [d3, d2]
        simp [ushioInit, List.replicate]
    · rw [show n = 4 + (n - 4) from by omega, uTraceN_split, c2_cycle, c2_a3_trace4,
        ih (n - 4) (by omega)]
      rw [← List.replicate_add]

theorem uTraceN_init_true : ∀ n, uTraceN n ushioInit = List.replicate n true := by
  intro n
  rcases n with _ | _ | m
  · rfl
  · simp [uTraceN, ushioInit]
  · rw [show m + 1 + 1 = 2 + m from by omega, uTraceN_split]
    have h2 : uRunN 2 ushioInit =
        { ushioInit with rxLastBit := true, rxBit := true, txTick := 3 } := by
      simp only [uRunN]
      rw [c2_tick0, c2_tick1]
    have htr : uTraceN 2 ushioInit = [true, true] := by
      simp only [uTraceN]
      rw [c2_tick0]
      simp [ushioInit]
    rw [h2, htr, c2_a3_trace m]
    rw [show ([true, true] : List Bool) = List.replicate 2 true from rfl,
      ← List.replicate_add]

/-- Counterexample to C2 as stated: at power-on the transmit queue holds no
pending bytes (write cursor 0, so the pending list is empty, not `51 32 0D`),
and over the first 300 ticks with the line idle the transmit framer drives
only the idle-high level — it never serializes anything. -/
theorem c2_cex :
    txPending ushioInit = [] ∧ uTraceN 300 ushioInit = List.replicate 300 true :=
  ⟨rfl, uTraceN_init_true 300⟩

/-- C2 (amended): at power-on the transmit buffer array does hold the bytes
`51 32 0D` in its first three cells, but the transmit write cursor is 0, so
the queue contains no pending bytes; with the line idle the transmit framer
never serializes them — the driven level is high on every tick, forever. -/
theorem c2_preload_never_sent :
    ushioInit.txBuf 0 = 0x51 ∧ ushioInit.txBuf 1 = 0x32 ∧ ushioInit.txBuf 2 = 0x0D ∧
    ushioInit.txWrite = 0 ∧ txPending ushioInit = [] ∧
    ∀ n, uTraceN n ushioInit = List.replicate n true :=
  ⟨rfl, rfl, rfl, rfl, rfl, uTraceN_init_true⟩

/-- Counterexample to C3 as stated: with 15 bytes already stored (write
cursor at 15, the last free slot of the 16-byte queue) and no clear, two
further received bytes are not dropped: the first fills slot 15, the cursor
wraps to 0, and the second overwrites the stored byte in slot 0 (`A0`
becomes `22`) — the stored queue contents are changed, and both extra bytes
are committed. -/
theorem c3_cex :
    (rxSt IDLE true true 0 false 1 (fun i => 0xA0 + i) 15 0 []).rxBuf 0 = 0xA0 ∧
    (rxFramerRun (frameSeq 0x11 ++ frameSeq 0x22)
      (rxSt IDLE true true 0 false 1 (fun i => 0xA0 + i) 15 0 [])).rxBuf 0 = 0x22 ∧
    (rxFramerRun (frameSeq 0x11 ++ frameSeq 0x22)
      (rxSt IDLE true true 0 false 1 (fun i => 0xA0 + i) 15 0 [])).rxLog
        = [0x11, 0x22] ∧
    (rxFramerRun (frameSeq 0x11 ++ frameSeq 0x22)
      (rxSt IDLE true true 0 false 1 (fun i => 0xA0 + i) 15 0 [])).rxWrite = 1 := by
  have b1 := rx_block 0x11 (by norm_num) true false 1 (fun i => 0xA0 + i) 15 0 []
  norm_num [rxTimeoutNext, UART_RX_TIMEOUT] at b1
  have b2 := rx_block 0x22 (by norm_num) true (parityFold 0x11) 0
    (bufSet (fun i => 0xA0 + i) 15 0x11) 0 438 [0x11]
  norm_num [rxTimeoutNext, UART_RX_TIMEOUT] at b2
  refine ⟨rfl, ?_, ?_, ?_⟩ <;> rw [rxFramerRun_append, b1, b2] <;>
    simp [rxSt, bufSet]

/-- C3 (amended): the receive queue never drops a received byte.  The write
cursor wraps modulo 16: committing a byte with the cursor at 15 stores it in
slot 15 and wraps the cursor to 0, and the next received byte overwrites the
oldest stored entry in slot 0.  Both bytes are committed (logged), none is
ignored. -/
theorem c3_wrap_overwrite (buf : Nat → Nat) (v1 v2 : Nat) (h1 : v1 < 256)
    (h2 : v2 < 256) (l par : Bool) (rb τ : Nat) (lg : List Nat) :
    (rxFramerRun (frameSeq v1 ++ frameSeq v2)
      (rxSt IDLE l true 0 par rb buf 15 τ lg)).rxWrite = 1 ∧
    (rxFramerRun (frameSeq v1 ++ frameSeq v2)
      (rxSt IDLE l true 0 par rb buf 15 τ lg)).rxBuf 0 = v2 ∧
    (rxFramerRun (frameSeq v1 ++ frameSeq v2)
      (rxSt IDLE l true 0 par rb buf 15 τ lg)).rxBuf 15 = v1 ∧
    (rxFramerRun (frameSeq v1 ++ frameSeq v2)
      (rxSt IDLE l true 0 par rb buf 15 τ lg)).rxLog = lg ++ [v1, v2] := by
  rw [rxFramerRun_append, rx_block v1 h1 l par rb buf 15 τ lg,
    rx_block v2 h2 true (parityFold v1) 0 (bufSet buf 15 v1) ((15 + 1) % 16)
      (rxTimeoutNext τ) (lg ++ [v1])]
  refine ⟨by norm_num [rxSt], ?_, ?_, by simp [rxSt]⟩
  · simp [rxSt, bufSet]
  · simp [rxSt, bufSet]

/-- Witness for C3 (amended) at concrete bytes `33` and `44`. -/
theorem c3_witness :
    (rxFramerRun (frameSeq 0x33 ++ frameSeq 0x44)
      (rxSt IDLE true true 0 false 1 (fun _ => 7) 15 9 [])).rxWrite = 1 ∧
    (rxFramerRun (frameSeq 0x33 ++ frameSeq 0x44)
      (rxSt IDLE true true 0 false 1 (fun _ => 7) 15 9 [])).rxBuf 0 = 0x44 ∧
    (rxFramerRun (frameSeq 0x33 ++ frameSeq 0x44)
      (rxSt IDLE true true 0 false 1 (fun _ => 7) 15 9 [])).rxLog = [0x33, 0x44] :=
  ⟨(c3_wrap_overwrite (fun _ => 7) 0x33 0x44 (by decide) (by decide) true false 1 9
      []).1,
   (c3_wrap_overwrite (fun _ => 7) 0x33 0x44 (by decide) (by decide) true false 1 9
      []).2.1,
   by
    have h := (c3_wrap_overwrite (fun _ => 7) 0x33 0x44 (by decide) (by decide) true
      false 1 9 []).2.2.2
    simpa using h⟩

end Ballast
